import Mathlib

/-!
Verification development for the calendar-to-task integration repository
(`src/calendar_server.py`, `src/notion_server.py`,
`src/calendar_to_notion_workflow.py`).  The Python code is shallowly
embedded: Python strings are Lean `String`s (operated on through their
`List Char` data), Python dynamic values are the inductive `PyVal`,
exceptions are `Except PyErr`, and the two outbound HTTP calls
(`requests.post` to the task API, the calendar API client) are oracles
passed in as function parameters.  Each definition is translated from the
source function named in its doc comment.
-/

/-- CPython `str.lower` on one character, restricted to ASCII (the only
characters the repository's keyword lists and filter values contain). -/
def toLowerPy (c : Char) : Char :=
  if 65 ≤ c.toNat ∧ c.toNat ≤ 90 then Char.ofNat (c.toNat + 32) else c

/-- CPython `str.upper` on one character, ASCII range. -/
def toUpperPy (c : Char) : Char :=
  if 97 ≤ c.toNat ∧ c.toNat ≤ 122 then Char.ofNat (c.toNat - 32) else c

/-- ASCII letter test (Python "cased character" for the ASCII subset). -/
def isAlphaPy (c : Char) : Bool :=
  (65 ≤ c.toNat && c.toNat ≤ 90) || (97 ≤ c.toNat && c.toNat ≤ 122)

/-- The characters CPython `str.strip()` removes (ASCII whitespace). -/
def isSpacePy (c : Char) : Bool :=
  c = ' ' || c = '\t' || c = '\n' || c = '\r' || c = '\x0b' || c = '\x0c'

/-- CPython `str.strip()` on the character list of a string. -/
def stripChars (l : List Char) : List Char :=
  ((l.dropWhile isSpacePy).reverse.dropWhile isSpacePy).reverse

/-- CPython `str.split(sep)` for a one-character separator: splits at every
occurrence, keeping empty pieces (`"".split(c) = [""]`). -/
def splitOnCharC (sep : Char) : List Char → List (List Char)
  | [] => [[]]
  | c :: cs =>
    if c = sep then [] :: splitOnCharC sep cs
    else
      match splitOnCharC sep cs with
      | [] => [[c]]
      | l :: ls => (c :: l) :: ls

/-- CPython `str.replace(pq, '')` for a two-character pattern `pq`:
removes every non-overlapping occurrence, scanning left to right. -/
def removeAllSub2 (p q : Char) : List Char → List Char
  | [] => []
  | [c] => [c]
  | c :: d :: cs =>
    if c = p ∧ d = q then removeAllSub2 p q cs
    else c :: removeAllSub2 p q (d :: cs)

/-- CPython `str.lower` on a whole string (ASCII). -/
def pyLower (s : String) : String := ⟨s.data.map toLowerPy⟩

/-- CPython `str.title()` scan: a cased character is uppercased when the
previous character is not cased, lowercased otherwise (ASCII). -/
def pyTitleAux (prevAlpha : Bool) : List Char → List Char
  | [] => []
  | c :: cs =>
    (if isAlphaPy c then (if prevAlpha then toLowerPy c else toUpperPy c) else c)
      :: pyTitleAux (isAlphaPy c) cs

/-- CPython `str.title()` on a whole string (ASCII). -/
def pyTitle (s : String) : String := ⟨pyTitleAux false s.data⟩

/-- The keyword list shared (verbatim) by `_extract_action_items_from_text`
(notion_server.py line 327), `_extract_action_items_simple`
(calendar_to_notion_workflow.py line 151) and `_extract_meeting_details`
(calendar_server.py line 275). -/
def action_keywords : List String :=
  ["todo", "action item", "follow up", "assign", "task", "deadline", "due"]

/-- Python `pat in s` on strings: contiguous-substring containment
(true at some position iff `pat` is a prefix of the suffix there). -/
def containsSub (pat : List Char) : List Char → Bool
  | [] => pat.isPrefixOf []
  | c :: cs => pat.isPrefixOf (c :: cs) || containsSub pat cs

/-- Python `any(keyword in line for keyword in action_keywords)`:
substring containment of some keyword in the (already lowercased) line. -/
def hasActionKeyword (line : List Char) : Bool :=
  action_keywords.any fun k => containsSub k.data line

/-- The cleaning step of both extraction functions:
`line_stripped.replace('- ', '').replace('* ', '').strip()`. -/
def cleanActionItem (lineStripped : List Char) : List Char :=
  stripChars (removeAllSub2 '*' ' ' (removeAllSub2 '-' ' ' lineStripped))

/-- The extraction loop shared by `_extract_action_items_from_text`
(notion_server.py lines 331-337, item truncation limit 100) and
`_extract_action_items_simple` (calendar_to_notion_workflow.py lines
155-160, limit 80): a line whose strip is non-empty and that contains a
keyword contributes its cleaned text, provided the cleaned text is
non-empty and longer than 10 characters. -/
def extractActionLoop (limit : Nat) : List (List Char) → List (List Char)
  | [] => []
  | line :: rest =>
    let ls := stripChars line
    if ls ≠ [] ∧ hasActionKeyword line then
      let clean := cleanActionItem ls
      if clean ≠ [] ∧ clean.length > 10 then
        clean.take limit :: extractActionLoop limit rest
      else extractActionLoop limit rest
    else extractActionLoop limit rest

/-- `NotionMCPServer._extract_action_items_from_text` (notion_server.py
lines 325-339): lowercase the text, split on newlines, run the extraction
loop with truncation 100, keep at most 5 items. -/
def _extract_action_items_from_text (text : String) : List String :=
  ((extractActionLoop 100 (splitOnCharC '\n' (text.data.map toLowerPy))).take 5).map
    fun l => ⟨l⟩

/-- `CalendarToNotionWorkflow._extract_action_items_simple`
(calendar_to_notion_workflow.py lines 149-162): identical to the bulk
extractor except the truncation limit is 80 and at most 3 items are kept. -/
def _extract_action_items_simple (text : String) : List String :=
  ((extractActionLoop 80 (splitOnCharC '\n' (text.data.map toLowerPy))).take 3).map
    fun l => ⟨l⟩

/-- The due-date extraction of `_create_tasks_from_calendar_events`
(notion_server.py lines 264-272) for a string `start_time`: empty gives
empty, a string containing `'T'` gives `start_time.split('T')[0]`, any
other non-empty string is used unchanged. -/
def extractDueDate (s : String) : String :=
  if s = "" then ""
  else if s.data.contains 'T' then ⟨(splitOnCharC 'T' s.data).headD []⟩
  else s

example : _extract_action_items_from_text "- TODO: call vendor" = ["todo: call vendor"] := by
  decide

example : _extract_action_items_simple "- TODO: call vendor" = ["todo: call vendor"] := by
  decide

example : extractDueDate "2024-03-01T10:00:00Z" = "2024-03-01" := by decide

example : pyTitle "hIgH" = "High" := by decide

/-- The Python values flowing through the servers: the JSON-like subset the
code constructs and inspects (None, booleans, integers, strings, lists,
string-keyed dicts). -/
inductive PyVal where
  | none
  | bool (b : Bool)
  | num (n : Int)
  | str (s : String)
  | list (xs : List PyVal)
  | dict (fields : List (String × PyVal))

/-- The Python exceptions the embedded code can raise. -/
inductive PyErr where
  | keyError (k : String)
  | indexError (msg : String)
  | typeError (msg : String)
  | valueError (msg : String)
  | attributeError (msg : String)
  | jsonDecodeError (msg : String)
  | fileNotFoundError (msg : String)
  | remoteError (msg : String)

/-- Python `str(e)` for a modelled exception, as interpolated into the
error texts (`str(KeyError(k))` is the repr of the key). -/
def PyErr.msg : PyErr → String
  | .keyError k => "'" ++ k ++ "'"
  | .indexError m | .typeError m | .valueError m | .attributeError m
  | .jsonDecodeError m | .fileNotFoundError m | .remoteError m => m

/-- Python truthiness of a value. -/
def pyTruthy : PyVal → Bool
  | .none => false
  | .bool b => b
  | .num n => n != 0
  | .str s => s != ""
  | .list xs => !xs.isEmpty
  | .dict fs => !fs.isEmpty

/-- Python `str(v)` / f-string interpolation of a value.  Nested list and
dict reprs are abbreviated (no message the claims inspect interpolates a
container). -/
def pyStr : PyVal → String
  | .none => "None"
  | .bool true => "True"
  | .bool false => "False"
  | .num n => toString n
  | .str s => s
  | .list _ => "[...]"
  | .dict _ => "\x7b...\x7d"

/-- Python `v == s` for a string literal `s`: equal only when `v` is the
same string (values of other types compare unequal). -/
def pyEqStr (v : PyVal) (s : String) : Bool :=
  match v with
  | .str t => t == s
  | _ => false

/-- Lookup of a key in a model dict's field list (first binding wins; the
embedding assembles dicts with distinct keys). -/
def lookupField (fs : List (String × PyVal)) (k : String) : Option PyVal :=
  (fs.find? fun p => p.1 == k).map fun p => p.2

/-- Python `v[k]` for a string key: a dict yields the binding or raises
`KeyError`; subscripting any other value with a string raises `TypeError`. -/
def pyDictIndex (v : PyVal) (k : String) : Except PyErr PyVal :=
  match v with
  | .dict fs =>
    match lookupField fs k with
    | some x => .ok x
    | none => .error (.keyError k)
  | _ => .error (.typeError "value is not subscriptable by a string")

/-- Python `v.get(k, dflt)`: only dicts have `.get`; any other receiver
raises `AttributeError`. -/
def pyDictGet (v : PyVal) (k : String) (dflt : PyVal) : Except PyErr PyVal :=
  match v with
  | .dict fs => .ok ((lookupField fs k).getD dflt)
  | _ => .error (.attributeError "value has no attribute get")

/-- Python `v[i]` for a natural index: lists and strings subscript (raising
`IndexError` out of range), other values raise `TypeError`. -/
def pyIndexNat (v : PyVal) (i : Nat) : Except PyErr PyVal :=
  match v with
  | .list xs =>
    match xs.get? i with
    | some x => .ok x
    | none => .error (.indexError "list index out of range")
  | .str s =>
    match s.data.get? i with
    | some c => .ok (.str ⟨[c]⟩)
    | none => .error (.indexError "string index out of range")
  | _ => .error (.typeError "value is not subscriptable")

/-- Python `for x in v`: lists yield their elements, strings their
one-character substrings, dicts their keys; other values raise
`TypeError`. -/
def pyIter (v : PyVal) : Except PyErr (List PyVal) :=
  match v with
  | .list xs => .ok xs
  | .str s => .ok (s.data.map fun c => .str ⟨[c]⟩)
  | .dict fs => .ok (fs.map fun p => .str p.1)
  | _ => .error (.typeError "value is not iterable")

/-- Python `needle in v` for a string needle: substring test on strings,
element equality on lists, key membership on dicts, `TypeError` elsewhere. -/
def pyContains (needle : String) (v : PyVal) : Except PyErr Bool :=
  match v with
  | .str s => .ok (containsSub needle.data s.data)
  | .list xs => .ok (xs.any fun x => pyEqStr x needle)
  | .dict fs => .ok (fs.any fun p => p.1 == needle)
  | _ => .error (.typeError "argument is not iterable")

/-- Python `v[:n]`: lists and strings slice, other values raise
`TypeError`. -/
def pySlice (v : PyVal) (n : Nat) : Except PyErr (List PyVal) :=
  match v with
  | .list xs => .ok (xs.take n)
  | .str s => .ok ((s.data.take n).map fun c => .str ⟨[c]⟩)
  | _ => .error (.typeError "value is not subscriptable")

/-- A handler's `arguments` dict. -/
abbrev PyDict := List (String × PyVal)

/-- Python `arguments[k]` on a handler argument dict. -/
def dictIndexD (d : PyDict) (k : String) : Except PyErr PyVal :=
  match lookupField d k with
  | some x => .ok x
  | none => .error (.keyError k)

/-- Python `arguments.get(k, dflt)` on a handler argument dict. -/
def dictGetD (d : PyDict) (k : String) (dflt : PyVal) : PyVal :=
  (lookupField d k).getD dflt

/-- ASCII digit test. -/
def isDigitC (c : Char) : Bool := 48 ≤ c.toNat && c.toNat ≤ 57

/-- Numeric value of an ASCII digit. -/
def dval (c : Char) : Nat := c.toNat - 48

/-- The `%Y` directive of `datetime.strptime`: exactly four digits. -/
def matchYear4 : List Char → Option (Nat × List Char)
  | c1 :: c2 :: c3 :: c4 :: rest =>
    if isDigitC c1 && isDigitC c2 && isDigitC c3 && isDigitC c4 then
      some (1000 * dval c1 + 100 * dval c2 + 10 * dval c3 + dval c4, rest)
    else none
  | _ => none

/-- The `%m` directive: the regex `1[0-2]|0[1-9]|[1-9]`, alternatives tried
left to right. -/
def matchMonth : List Char → Option (Nat × List Char)
  | [] => none
  | [c] => if 49 ≤ c.toNat && c.toNat ≤ 57 then some (dval c, []) else none
  | c :: d :: rest =>
    if c = '1' && (48 ≤ d.toNat && d.toNat ≤ 50) then some (10 + dval d, rest)
    else if c = '0' && (49 ≤ d.toNat && d.toNat ≤ 57) then some (dval d, rest)
    else if 49 ≤ c.toNat && c.toNat ≤ 57 then some (dval c, d :: rest)
    else none

/-- The `%d` directive: the regex `3[01]|[12]\d|0[1-9]|[1-9]| [1-9]`,
alternatives tried left to right. -/
def matchDay : List Char → Option (Nat × List Char)
  | [] => none
  | [c] => if 49 ≤ c.toNat && c.toNat ≤ 57 then some (dval c, []) else none
  | c :: d :: rest =>
    if c = '3' && (d = '0' || d = '1') then some (30 + dval d, rest)
    else if (c = '1' || c = '2') && isDigitC d then some (10 * dval c + dval d, rest)
    else if c = '0' && (49 ≤ d.toNat && d.toNat ≤ 57) then some (dval d, rest)
    else if 49 ≤ c.toNat && c.toNat ≤ 57 then some (dval c, d :: rest)
    else if c = ' ' && (49 ≤ d.toNat && d.toNat ≤ 57) then some (dval d, rest)
    else none

/-- Gregorian leap-year rule, as `datetime` uses it. -/
def isLeapYear (y : Nat) : Bool := y % 4 == 0 && (y % 100 != 0 || y % 400 == 0)

/-- Days in a month, as `datetime` validates them. -/
def daysInMonth (y m : Nat) : Nat :=
  if m = 2 then (if isLeapYear y then 29 else 28)
  else if m = 4 ∨ m = 6 ∨ m = 9 ∨ m = 11 then 30
  else 31

/-- Whether `datetime.strptime(s, '%Y-%m-%d')` succeeds: CPython compiles
the format to the regex `\d\d\d\d-(1[0-2]|0[1-9]|[1-9])-(3[01]|[12]\d|0[1-9]|[1-9]| [1-9])`,
requires the whole string to be consumed, and the `date` constructor then
requires the year to be at least 1 and the day to exist in the month. -/
def validDatePy (s : String) : Bool :=
  match matchYear4 s.data with
  | some (y, '-' :: r1) =>
    match matchMonth r1 with
    | some (m, '-' :: r2) =>
      match matchDay r2 with
      | some (d, []) => 1 ≤ y && d ≤ daysInMonth y m
      | _ => false
    | _ => false
  | _ => false

example : validDatePy "2024-03-01" = true := by decide
example : validDatePy "2024-02-29" = true := by decide
example : validDatePy "2023-02-29" = false := by decide
example : validDatePy "2024-13-01" = false := by decide
example : validDatePy "not-a-date" = false := by decide
example : validDatePy "2024-3-7" = true := by decide
example : validDatePy "2024-03-01extra" = false := by decide
example : validDatePy "0000-01-01" = false := by decide

/-- The two environment secrets read by `NotionMCPServer.__init__`
(notion_server.py lines 20-21): `os.getenv` gives None when unset. -/
structure NotionConfig where
  notion_api_key : Option String
  notion_database_id : Option String

/-- Python truthiness of an optional environment string (None and "" are
falsy). -/
def optTruthy : Option String → Bool
  | none => false
  | some s => s != ""

/-- f-string interpolation of an optional string (None prints as "None"). -/
def optStr : Option String → String
  | none => "None"
  | some s => s

/-- The JSON body `_create_task` posts to `{notion_url}/pages`
(notion_server.py lines 180-221). -/
structure TaskPayload where
  database_id : String
  title : PyVal
  status : String
  priority : PyVal
  source : PyVal
  created : String
  due_date : Option String
  children : Option PyVal

/-- One attempted `requests.post` of `_create_task`: URL, authorization
header and body. -/
structure CreateRequest where
  url : String
  auth : String
  payload : TaskPayload

/-- The observable outcome of one `requests.post` for a create call: a
raised exception, a 200 response whose parsed body carries the page id, a
200 response whose body fails to parse, or a non-200 response. -/
inductive NetResult where
  | exn (msg : String)
  | created (id : String)
  | createdBadBody (msg : String)
  | httpError (status : Nat) (text : String)

/-- The network oracle for task creation. -/
abbrev Net := CreateRequest → NetResult

/-- `NotionMCPServer._create_task` (notion_server.py lines 165-246).
Returns the requests attempted and either the returned texts or the
exception that propagates to `handle_call_tool` (`KeyError` on a missing
`title`, `TypeError` when a truthy non-string reaches `strptime`; the
`ValueError` of an invalid date string is swallowed by the inner
`except ValueError: pass`, and everything around `requests.post` is caught
by the inner `except Exception`).  `now` is `datetime.now().isoformat()`. -/
def _create_task (cfg : NotionConfig) (now : String) (net : Net) (args : PyDict) :
    List CreateRequest × Except PyErr (List String) :=
  if ¬ optTruthy cfg.notion_api_key ∨ ¬ optTruthy cfg.notion_database_id then
    ([], .ok ["Error: Notion API key or database ID not configured."])
  else
    match dictIndexD args "title" with
    | .error e => ([], .error e)
    | .ok title =>
      let description := dictGetD args "description" (.str "")
      let due_date := dictGetD args "due_date" (.str "")
      let priority := dictGetD args "priority" (.str "Medium")
      let source := dictGetD args "source" (.str "Calendar")
      let dueField : Except PyErr (Option String) :=
        if pyTruthy due_date then
          match due_date with
          | .str s => if validDatePy s then .ok (some s) else .ok none
          | _ => .error (.typeError "strptime() argument must be str")
        else .ok none
      match dueField with
      | .error e => ([], .error e)
      | .ok dd =>
        let payload : TaskPayload :=
          { database_id := optStr cfg.notion_database_id,
            title := title,
            status := "Not started",
            priority := priority,
            source := source,
            created := now,
            due_date := dd,
            children := if pyTruthy description then some description else none }
        let req : CreateRequest :=
          { url := "https://api.notion.com/v1/pages",
            auth := "Bearer " ++ optStr cfg.notion_api_key,
            payload := payload }
        match net req with
        | .exn m => ([req], .ok ["❌ Error creating task: " ++ m])
        | .created pid =>
          ([req], .ok ["✅ Task created successfully: '" ++ pyStr title
            ++ "'\nPage ID: " ++ pid])
        | .createdBadBody m => ([req], .ok ["❌ Error creating task: " ++ m])
        | .httpError st tx =>
          ([req], .ok ["❌ Error creating task: " ++ toString st ++ " - " ++ tx])

/-- The due-date computation of the bulk loop (notion_server.py lines
263-272) on an arbitrary `start_time` value.  The surrounding bare
`try/except: pass` swallows every exception (`TypeError` from `'T' in`
a non-container, `AttributeError` from `.split` on a non-string), leaving
the initial `""`. -/
def eventDueDate (st : PyVal) : PyVal :=
  if ¬ pyTruthy st then .str ""
  else
    match pyContains "T" st with
    | .error _ => .str ""
    | .ok true =>
      match st with
      | .str s => .str ⟨(splitOnCharC 'T' s.data).headD []⟩
      | _ => .str ""
    | .ok false => st

/-- The `event_description` built for the main event task
(notion_server.py lines 275-279). -/
def mkEventDescription (location description : PyVal) : String :=
  "📅 Calendar Event\n"
    ++ (if ¬ pyEqStr location "No location specified" then
          "📍 Location: " ++ pyStr location ++ "\n" else "")
    ++ (if ¬ pyEqStr description "No description" then
          "📝 Notes: " ++ pyStr description ++ "\n" else "")

/-- `main_task_args` (notion_server.py lines 281-287). -/
def mkMainTaskArgs (title description location due_date : PyVal) : PyDict :=
  [("title", .str ("📅 " ++ pyStr title)),
   ("description", .str (mkEventDescription location description)),
   ("due_date", due_date),
   ("priority", .str "Medium"),
   ("source", .str "Calendar")]

/-- `action_task_args` (notion_server.py lines 297-303). -/
def mkActionTaskArgs (item : String) (title due_date : PyVal) : PyDict :=
  [("title", .str ("🎯 " ++ item)),
   ("description", .str ("Action item from meeting: " ++ pyStr title)),
   ("due_date", due_date),
   ("priority", .str "High"),
   ("source", .str "Meeting")]

/-- What one iteration (or run) of the bulk event loop produces: the
argument dicts passed to `_create_task` (the emitted TaskRecords), the
HTTP requests attempted, the `created_tasks` entries appended, and the
exception aborting the loop, if any. -/
structure ProcOut where
  taskArgs : List PyDict
  requests : List CreateRequest
  entries : List String
  err : Option PyErr

/-- The inner action-item loop of the bulk path (notion_server.py lines
296-306): one `_create_task` call and one `created_tasks` entry per
extracted item, the call's own result text discarded. -/
def actionLoop (cfg : NotionConfig) (now : String) (net : Net)
    (evTitle due_date : PyVal) : List String → ProcOut
  | [] => ⟨[], [], [], none⟩
  | item :: rest =>
    let args := mkActionTaskArgs item evTitle due_date
    match _create_task cfg now net args with
    | (reqs, .error e) => ⟨[args], reqs, [], some e⟩
    | (reqs, .ok _) =>
      let o := actionLoop cfg now net evTitle due_date rest
      ⟨args :: o.taskArgs, reqs ++ o.requests, ("Action: " ++ item) :: o.entries, o.err⟩

/-- The body of the bulk event loop (notion_server.py lines 257-306) for
one event: read the fields with defaults (`.get` on a non-dict raises),
create the main event task, append its entry, then extract and create
action items when `extract_action_items` is truthy and the description is
not the `"No description"` default. -/
def processEvent (cfg : NotionConfig) (now : String) (net : Net)
    (extract : PyVal) (event : PyVal) : ProcOut :=
  match event with
  | .dict fs =>
    let title := (lookupField fs "title").getD (.str "Untitled Event")
    let description := (lookupField fs "description").getD (.str "")
    let start_time := (lookupField fs "start_time").getD (.str "")
    let location := (lookupField fs "location").getD (.str "")
    let due_date := eventDueDate start_time
    let mainArgs := mkMainTaskArgs title description location due_date
    match _create_task cfg now net mainArgs with
    | (reqs, .error e) => ⟨[mainArgs], reqs, [], some e⟩
    | (reqs, .ok _) =>
      let entry := "Event: " ++ pyStr title
      if pyTruthy extract ∧ ¬ pyEqStr description "No description" then
        match description with
        | .str dtext =>
          let items := _extract_action_items_from_text dtext
          let o := actionLoop cfg now net title due_date items
          ⟨mainArgs :: o.taskArgs, reqs ++ o.requests, entry :: o.entries, o.err⟩
        | _ =>
          ⟨[mainArgs], reqs, [entry], some (.attributeError "value has no attribute lower")⟩
      else ⟨[mainArgs], reqs, [entry], none⟩
  | _ => ⟨[], [], [], some (.attributeError "value has no attribute get")⟩

/-- The whole bulk event loop: events processed in order, stopping at the
first exception. -/
def processEvents (cfg : NotionConfig) (now : String) (net : Net)
    (extract : PyVal) : List PyVal → ProcOut
  | [] => ⟨[], [], [], none⟩
  | ev :: rest =>
    let o := processEvent cfg now net extract ev
    match o.err with
    | some _ => o
    | none =>
      let o2 := processEvents cfg now net extract rest
      ⟨o.taskArgs ++ o2.taskArgs, o.requests ++ o2.requests,
       o.entries ++ o2.entries, o2.err⟩

/-- The `json.loads` decoder, passed as an oracle: its control-flow
placement (which exceptions reach which handler) is modelled exactly,
its parsing internals are irrelevant to every claim. -/
abbrev JsonLoads := String → Except String PyVal

/-- `NotionMCPServer._create_tasks_from_calendar_events` (notion_server.py
lines 248-323): `arguments['events']` may raise `KeyError` (propagating to
`handle_call_tool`); inside the `try`, `json.loads`, iteration and the
loop run, with `json.JSONDecodeError` mapped to the invalid-JSON text and
every other exception to the generic text. -/
def _create_tasks_from_calendar_events (cfg : NotionConfig) (now : String)
    (net : Net) (jsonLoads : JsonLoads) (args : PyDict) :
    List CreateRequest × Except PyErr (List String) :=
  match dictIndexD args "events" with
  | .error e => ([], .error e)
  | .ok events_json =>
    let extract := dictGetD args "extract_action_items" (.bool true)
    let decoded : Except PyErr PyVal :=
      match events_json with
      | .str s =>
        match jsonLoads s with
        | .ok v => .ok v
        | .error m => .error (.jsonDecodeError m)
      | _ => .error (.typeError "the JSON object must be str")
    match decoded with
    | .error (.jsonDecodeError _) => ([], .ok ["❌ Error: Invalid JSON format for events."])
    | .error e => ([], .ok ["❌ Error creating tasks from events: " ++ e.msg])
    | .ok v =>
      match pyIter v with
      | .error e => ([], .ok ["❌ Error creating tasks from events: " ++ e.msg])
      | .ok evs =>
        let o := processEvents cfg now net extract evs
        match o.err with
        | some e => (o.requests, .ok ["❌ Error creating tasks from events: " ++ e.msg])
        | none =>
          (o.requests,
           .ok ["✅ Created " ++ toString o.entries.length
                ++ " tasks from calendar events:\n"
                ++ String.intercalate "\n" (o.entries.map fun t => "• " ++ t)])

/-- The action-item loop of `_create_meeting_summary` (notion_server.py
lines 374-385): one `_create_task` per item (result discarded),
`created_actions` incremented after each. -/
def meetingActionLoop (cfg : NotionConfig) (now : String) (net : Net)
    (meeting_title meeting_date : PyVal) :
    List PyVal → List CreateRequest × Nat × Option PyErr
  | [] => ([], 0, none)
  | item :: rest =>
    let args : PyDict :=
      [("title", .str ("🎯 " ++ pyStr item)),
       ("description", .str ("Action item from meeting: " ++ pyStr meeting_title)),
       ("due_date", meeting_date),
       ("priority", .str "High"),
       ("source", .str "Meeting")]
    match _create_task cfg now net args with
    | (reqs, .error e) => (reqs, 0, some e)
    | (reqs, .ok _) =>
      let (reqs2, n, er) := meetingActionLoop cfg now net meeting_title meeting_date rest
      (reqs ++ reqs2, n + 1, er)

/-- `NotionMCPServer._create_meeting_summary` (notion_server.py lines
341-396).  `meeting_title` and `summary` are required (`KeyError`
propagates); `today` is `datetime.now().strftime('%Y-%m-%d')`, the default
meeting date.  Inside the `try`, any exception (bad JSON, unsliceable
action items, a truthy non-string date reaching `strptime`) becomes the
generic error text. -/
def _create_meeting_summary (cfg : NotionConfig) (now today : String)
    (net : Net) (jsonLoads : JsonLoads) (args : PyDict) :
    List CreateRequest × Except PyErr (List String) :=
  match dictIndexD args "meeting_title" with
  | .error e => ([], .error e)
  | .ok meeting_title =>
    let meeting_date := dictGetD args "meeting_date" (.str today)
    let attendees := dictGetD args "attendees" (.str "")
    match dictIndexD args "summary" with
    | .error e => ([], .error e)
    | .ok summary =>
      let action_items_json := dictGetD args "action_items" (.str "[]")
      let loaded : Except PyErr PyVal :=
        if pyTruthy action_items_json then
          match action_items_json with
          | .str s =>
            match jsonLoads s with
            | .ok v => .ok v
            | .error m => .error (.jsonDecodeError m)
          | _ => .error (.typeError "the JSON object must be str")
        else .ok (.list [])
      match loaded with
      | .error e => ([], .ok ["❌ Error creating meeting summary: " ++ e.msg])
      | .ok action_items =>
        let base := "📊 Meeting Summary\n"
          ++ (if pyTruthy attendees then "👥 Attendees: " ++ pyStr attendees ++ "\n" else "")
          ++ "📝 Summary:\n" ++ pyStr summary ++ "\n"
        let descSlice : Except PyErr (Option (List PyVal)) :=
          if pyTruthy action_items then (pySlice action_items 5).map some
          else .ok none
        match descSlice with
        | .error e => ([], .ok ["❌ Error creating meeting summary: " ++ e.msg])
        | .ok osl =>
          let meeting_description := base ++
            (match osl with
             | some items =>
               "\n🎯 Action Items:\n"
                 ++ String.join (items.map fun it => "• " ++ pyStr it ++ "\n")
             | none => "")
          let summaryArgs : PyDict :=
            [("title", .str ("📊 Meeting Summary: " ++ pyStr meeting_title)),
             ("description", .str meeting_description),
             ("due_date", meeting_date),
             ("priority", .str "Medium"),
             ("source", .str "Meeting")]
          match _create_task cfg now net summaryArgs with
          | (reqs, .error e) => (reqs, .ok ["❌ Error creating meeting summary: " ++ e.msg])
          | (reqs, .ok _) =>
            match pySlice action_items 5 with
            | .error e => (reqs, .ok ["❌ Error creating meeting summary: " ++ e.msg])
            | .ok items =>
              match meetingActionLoop cfg now net meeting_title meeting_date items with
              | (reqs2, _, some e) =>
                (reqs ++ reqs2, .ok ["❌ Error creating meeting summary: " ++ e.msg])
              | (reqs2, n, none) =>
                (reqs ++ reqs2,
                 .ok ["✅ Created meeting summary and " ++ toString n
                      ++ " action items for: " ++ pyStr meeting_title])

/-- The JSON body `_get_tasks` posts to the database query endpoint
(notion_server.py lines 405-415): the page size and the optional
priority filter (property name, required `equals` value). -/
structure QueryPayload where
  page_size : Nat
  filter : Option (String × String)

/-- One attempted `requests.post` of `_get_tasks`. -/
structure QueryRequest where
  url : String
  auth : String
  payload : QueryPayload

/-- The observable outcome of one query post: a raised exception, a 200
response with its parsed JSON body, a 200 response whose body fails to
parse, or a non-200 response. -/
inductive QueryNetResult where
  | exn (msg : String)
  | okBody (body : PyVal)
  | okBadBody (msg : String)
  | httpError (status : Nat) (text : String)

/-- The network oracle for database queries. -/
abbrev QueryNet := QueryRequest → QueryNetResult

/-- The title extraction of `_get_tasks` (notion_server.py lines 430-432):
guarded nested lookups into `properties['Name']['title'][0]['text']['content']`. -/
def titleOfLine (properties : PyVal) : Except PyErr String := do
  let present ← pyContains "Name" properties
  if present then
    let nv ← pyDictIndex properties "Name"
    let tval ← pyDictGet nv "title" PyVal.none
    if pyTruthy tval then
      let nv2 ← pyDictIndex properties "Name"
      let tl ← pyDictIndex nv2 "title"
      let e0 ← pyIndexNat tl 0
      let tx ← pyDictIndex e0 "text"
      let ct ← pyDictIndex tx "content"
      pure (pyStr ct)
    else pure "Untitled"
  else pure "Untitled"

/-- The status/priority extraction of `_get_tasks` (notion_server.py lines
434-440): `properties[key]['select']['name']` behind the same guards. -/
def selectNameOf (properties : PyVal) (key : String) : Except PyErr String := do
  let present ← pyContains key properties
  if present then
    let v ← pyDictIndex properties key
    let sval ← pyDictGet v "select" PyVal.none
    if pyTruthy sval then
      let v2 ← pyDictIndex properties key
      let sl ← pyDictIndex v2 "select"
      let nm ← pyDictIndex sl "name"
      pure (pyStr nm)
    else pure "Unknown"
  else pure "Unknown"

/-- One formatted task line of `_get_tasks` (notion_server.py lines
427-442). -/
def formatTaskLine (page : PyVal) : Except PyErr String := do
  let properties ← pyDictGet page "properties" (.dict [])
  let title ← titleOfLine properties
  let status ← selectNameOf properties "Status"
  let priority ← selectNameOf properties "Priority"
  pure ("• " ++ title ++ " [" ++ status ++ "] - " ++ priority ++ " priority")

/-- The task lines built from a 200 response body (notion_server.py lines
424-442): `data.get('results', [])`, then one line per page. -/
def formatTaskLines (body : PyVal) : Except PyErr (List String) := do
  let results ← pyDictGet body "results" (.list [])
  let pages ← pyIter results
  pages.mapM formatTaskLine

/-- `NotionMCPServer._get_tasks` (notion_server.py lines 398-464).  Note:
there is no configuration guard here — the URL is built from the possibly
absent database id (interpolating `None`), the request is posted with the
possibly absent key, and the whole body sits in a `try` whose
`except Exception` produces the fetch-error text. -/
def _get_tasks (cfg : NotionConfig) (netQ : QueryNet) (args : PyDict) :
    List QueryRequest × Except PyErr (List String) :=
  let filter_by := dictGetD args "filter_by" (.str "")
  let url := "https://api.notion.com/v1/databases/"
    ++ optStr cfg.notion_database_id ++ "/query"
  let payloadE : Except PyErr QueryPayload :=
    if pyTruthy filter_by then
      match filter_by with
      | .str s =>
        if (["high", "medium", "low"] : List String).contains (pyLower s) then
          .ok ⟨10, some ("Priority", pyTitle s)⟩
        else .ok ⟨10, none⟩
      | _ => .error (.attributeError "value has no attribute lower")
    else .ok ⟨10, none⟩
  match payloadE with
  | .error e => ([], .ok ["❌ Error fetching tasks: " ++ e.msg])
  | .ok payload =>
    let req : QueryRequest :=
      ⟨url, "Bearer " ++ optStr cfg.notion_api_key, payload⟩
    match netQ req with
    | .exn m => ([req], .ok ["❌ Error fetching tasks: " ++ m])
    | .okBadBody m => ([req], .ok ["❌ Error fetching tasks: " ++ m])
    | .httpError st tx =>
      ([req], .ok ["❌ Error fetching tasks: " ++ toString st ++ " - " ++ tx])
    | .okBody body =>
      match formatTaskLines body with
      | .error e => ([req], .ok ["❌ Error fetching tasks: " ++ e.msg])
      | .ok tasks =>
        if !tasks.isEmpty then
          ([req], .ok ["📋 Found " ++ toString tasks.length ++ " tasks:\n"
            ++ String.intercalate "\n" tasks])
        else ([req], .ok ["📋 No tasks found in the database."])

/-- `handle_call_tool` of the notion server (notion_server.py lines
131-155): a None argument dict becomes empty, the name dispatches to the
four handlers, an unknown name raises `ValueError`, and the surrounding
`except Exception` turns any escaped exception into the
`Error executing ...` text.  Returns all requests attempted and the texts
handed back to the caller. -/
def notionHandleCallTool (cfg : NotionConfig) (now today : String)
    (net : Net) (netQ : QueryNet) (jsonLoads : JsonLoads)
    (name : String) (arguments : Option PyDict) :
    List CreateRequest × List QueryRequest × List String :=
  let args := arguments.getD []
  let dispatched : List CreateRequest × List QueryRequest × Except PyErr (List String) :=
    if name = "create_task" then
      let (r, t) := _create_task cfg now net args
      (r, [], t)
    else if name = "create_tasks_from_calendar_events" then
      let (r, t) := _create_tasks_from_calendar_events cfg now net jsonLoads args
      (r, [], t)
    else if name = "create_meeting_summary" then
      let (r, t) := _create_meeting_summary cfg now today net jsonLoads args
      (r, [], t)
    else if name = "get_tasks" then
      let (q, t) := _get_tasks cfg netQ args
      ([], q, t)
    else ([], [], .error (.valueError ("Unknown tool: " ++ name)))
  match dispatched with
  | (r, q, .ok texts) => (r, q, texts)
  | (r, q, .error e) => (r, q, ["Error executing " ++ name ++ ": " ++ e.msg])

mutual

/-- A plain JSON rendering of a model value (the shape of `json.dumps`;
pretty-printing details are not modelled, no claim inspects the dumped
text). -/
def jsonDumpsVal : PyVal → String
  | .none => "null"
  | .bool true => "true"
  | .bool false => "false"
  | .num n => toString n
  | .str s => "\"" ++ s ++ "\""
  | .list xs => "[" ++ String.intercalate ", " (jsonDumpsList xs) ++ "]"
  | .dict fs => "\x7b" ++ String.intercalate ", " (jsonDumpsFields fs) ++ "\x7d"

/-- Renders list elements. -/
def jsonDumpsList : List PyVal → List String
  | [] => []
  | x :: xs => jsonDumpsVal x :: jsonDumpsList xs

/-- Renders dict fields. -/
def jsonDumpsFields : List (String × PyVal) → List String
  | [] => []
  | (k, v) :: fs => ("\"" ++ k ++ "\": " ++ jsonDumpsVal v) :: jsonDumpsFields fs

end

/-- The `event_info` record built for each raw calendar event
(calendar_server.py lines 176-182 and 237-243). -/
structure EventInfo where
  title : PyVal
  start_time : PyVal
  description : PyVal
  location : PyVal
  attendees : List PyVal

/-- The `event_info` dict in the order the source writes it. -/
def eventInfoVal (e : EventInfo) : PyVal :=
  .dict [("title", e.title), ("start_time", e.start_time),
         ("description", e.description), ("location", e.location),
         ("attendees", .list e.attendees)]

/-- The per-event formatting shared verbatim by `_get_todays_events`
(calendar_server.py lines 170-183) and `_get_events_by_date` (lines
231-244): `event['start'].get('dateTime', event['start'].get('date'))`,
the defaulted `summary`/`description`/`location` lookups, and
`[attendee.get('email') for attendee in event.get('attendees', [])]`. -/
def formatEvent (event : PyVal) : Except PyErr EventInfo := do
  let sd ← pyDictIndex event "start"
  let dflt ← pyDictGet sd "date" PyVal.none
  let start ← pyDictGet sd "dateTime" dflt
  let summary ← pyDictGet event "summary" (.str "No title")
  let description ← pyDictGet event "description" (.str "No description")
  let location ← pyDictGet event "location" (.str "No location specified")
  let rawAtt ← pyDictGet event "attendees" (.list [])
  let attList ← pyIter rawAtt
  let attendees ← attList.mapM fun a => pyDictGet a "email" PyVal.none
  pure ⟨summary, start, description, location, attendees⟩

/-- A calendar API query: calendar id and the half-open time range. -/
structure CalQuery where
  calendar_id : PyVal
  timeMin : String
  timeMax : String

/-- The calendar service oracle: `events().list(...).execute()` returns the
response value or raises. -/
abbrev CalNet := CalQuery → Except String PyVal

/-- The shared `try` body of both calendar fetchers (calendar_server.py
lines 151-188 and 213-249): run the query, read `items` with an empty
default, return the no-events text when falsy, otherwise the JSON dump of
the formatted events. -/
def fetchEvents (svc : CalNet) (calendar_id : PyVal) (tmin tmax emptyMsg : String) :
    Except PyErr (List String) := do
  let response ← (svc ⟨calendar_id, tmin, tmax⟩).mapError PyErr.remoteError
  let events ← pyDictGet response "items" (.list [])
  if ¬ pyTruthy events then pure [emptyMsg]
  else do
    let evs ← pyIter events
    let infos ← evs.mapM formatEvent
    pure [jsonDumpsVal (.list (infos.map eventInfoVal))]

/-- Lazily-authenticated service access (calendar_server.py lines 139-140
and 198-199): a missing service triggers `_authenticate_google_calendar`,
whose failure (e.g. `FileNotFoundError` for a missing credentials file)
propagates out of the handler body, before the `try`. -/
def getService (service : Option CalNet) (auth : Except String CalNet) :
    Except PyErr CalNet :=
  match service with
  | some s => .ok s
  | none => auth.mapError PyErr.fileNotFoundError

/-- `CalendarMCPServer._get_todays_events` (calendar_server.py lines
137-194).  `today_iso`/`tomorrow_iso` are the clock-derived midnight
bounds. -/
def _get_todays_events (service : Option CalNet) (auth : Except String CalNet)
    (today_iso tomorrow_iso : String) (args : PyDict) : Except PyErr (List String) :=
  match getService service auth with
  | .error e => .error e
  | .ok svc =>
    let calendar_id := dictGetD args "calendar_id" (.str "primary")
    match fetchEvents svc calendar_id today_iso tomorrow_iso "No events found for today." with
    | .error e => .ok ["Error fetching events: " ++ e.msg]
    | .ok texts => .ok texts

/-- `datetime.strptime(s, '%Y-%m-%d')` as a parser: the same regex and
constructor checks as `validDatePy`, yielding the date. -/
def parseDatePy (s : String) : Option (Nat × Nat × Nat) :=
  match matchYear4 s.data with
  | some (y, '-' :: r1) =>
    match matchMonth r1 with
    | some (m, '-' :: r2) =>
      match matchDay r2 with
      | some (d, []) =>
        if 1 ≤ y && d ≤ daysInMonth y m then some (y, m, d) else none
      | _ => none
    | _ => none
  | _ => none

/-- Zero-padding to two digits (`isoformat`). -/
def pad2 (n : Nat) : String := if n < 10 then "0" ++ toString n else toString n

/-- Zero-padding to four digits (`isoformat`). -/
def pad4 (n : Nat) : String :=
  if n < 10 then "000" ++ toString n
  else if n < 100 then "00" ++ toString n
  else if n < 1000 then "0" ++ toString n
  else toString n

/-- `datetime(y, m, d).isoformat()` at midnight. -/
def isoMidnight (y m d : Nat) : String :=
  pad4 y ++ "-" ++ pad2 m ++ "-" ++ pad2 d ++ "T00:00:00"

/-- `start_of_day + timedelta(days=1)`. -/
def nextDay (y m d : Nat) : Nat × Nat × Nat :=
  if d < daysInMonth y m then (y, m, d + 1)
  else if m < 12 then (y, m + 1, 1)
  else (y + 1, 1, 1)

/-- `CalendarMCPServer._get_events_by_date` (calendar_server.py lines
196-260): `arguments['date']` may raise `KeyError` (propagating); inside
the `try`, a date string failing `strptime` yields the invalid-format
text (`except ValueError`), a non-string date raises `TypeError` into the
generic handler, and query failures yield the fetch-error text. -/
def _get_events_by_date (service : Option CalNet) (auth : Except String CalNet)
    (args : PyDict) : Except PyErr (List String) :=
  match getService service auth with
  | .error e => .error e
  | .ok svc =>
    match dictIndexD args "date" with
    | .error e => .error e
    | .ok dateV =>
      let calendar_id := dictGetD args "calendar_id" (.str "primary")
      match dateV with
      | .str date_str =>
        match parseDatePy date_str with
        | none => .ok ["Invalid date format. Please use YYYY-MM-DD."]
        | some (y, m, d) =>
          let start_iso := isoMidnight y m d ++ "Z"
          let next := nextDay y m d
          let end_iso := isoMidnight next.1 next.2.1 next.2.2 ++ "Z"
          match fetchEvents svc calendar_id start_iso end_iso
              ("No events found for " ++ date_str ++ ".") with
          | .error e => .ok ["Error fetching events: " ++ e.msg]
          | .ok texts => .ok texts
      | _ =>
        .ok ["Error fetching events: "
          ++ (PyErr.typeError "strptime() argument must be str").msg]

/-- `CalendarMCPServer._extract_meeting_details` (calendar_server.py lines
262-291): keyword scans over the lowercased lines, dumped as JSON. -/
def _extract_meeting_details (args : PyDict) : Except PyErr (List String) :=
  match dictIndexD args "event_text" with
  | .error e => .error e
  | .ok v =>
    match v with
    | .str event_text =>
      let lines := splitOnCharC '\n' (event_text.data.map toLowerPy)
      let actionItems : List PyVal :=
        (lines.filter hasActionKeyword).map fun l => .str ⟨stripChars l⟩
      let topic_keywords : List String :=
        ["discuss", "review", "plan", "strategy", "budget", "timeline", "project"]
      let topics : List PyVal :=
        (lines.filter fun l => topic_keywords.any fun k => containsSub k.data l).map
          fun l => .str ⟨stripChars l⟩
      let analysis : PyVal :=
        .dict [("summary", .str "Meeting details extracted"),
               ("potential_action_items", .list actionItems),
               ("key_topics", .list topics),
               ("attendees_mentioned", .list [])]
      .ok [jsonDumpsVal analysis]
    | _ => .error (.attributeError "value has no attribute lower")

/-- `handle_call_tool` of the calendar server (calendar_server.py lines
85-107): same dispatch-and-catch shape as the notion server's. -/
def calendarHandleCallTool (service : Option CalNet) (auth : Except String CalNet)
    (today_iso tomorrow_iso : String) (name : String) (arguments : Option PyDict) :
    List String :=
  let args := arguments.getD []
  let dispatched : Except PyErr (List String) :=
    if name = "get_todays_events" then
      _get_todays_events service auth today_iso tomorrow_iso args
    else if name = "get_events_by_date" then _get_events_by_date service auth args
    else if name = "extract_meeting_details" then _extract_meeting_details args
    else .error (.valueError ("Unknown tool: " ++ name))
  match dispatched with
  | .ok texts => texts
  | .error e => ["Error executing " ++ name ++ ": " ++ e.msg]

/-- The meeting-date computation of
`CalendarToNotionWorkflow._create_meeting_summaries`
(calendar_to_notion_workflow.py lines 116-125): defaults to today's date,
replaced by the `'T'`-prefix or the whole `start_time` under the same
bare-`except`-guarded split as the bulk path. -/
def meetingDateOf (today : String) (st : PyVal) : PyVal :=
  if ¬ pyTruthy st then .str today
  else
    match pyContains "T" st with
    | .error _ => .str today
    | .ok true =>
      match st with
      | .str s => .str ⟨(splitOnCharC 'T' s.data).headD []⟩
      | _ => .str today
    | .ok false => st

/-- Membership in the extraction loop's output comes from a matching line:
the item is the cleaned, truncated text of some line of the input whose
strip is non-empty and that contains a keyword. -/
theorem extractActionLoop_sound (limit : Nat) (lines : List (List Char))
    (l : List Char) (h : l ∈ extractActionLoop limit lines) :
    ∃ line ∈ lines, stripChars line ≠ [] ∧ hasActionKeyword line = true ∧
      l = (cleanActionItem (stripChars line)).take limit := by
  induction lines with
  | nil => simp [extractActionLoop] at h
  | cons line rest ih =>
    simp only [extractActionLoop] at h
    split at h
    · next hcond =>
      split at h
      · rcases List.mem_cons.mp h with h1 | h1
        · exact ⟨line, List.mem_cons_self .., hcond.1, hcond.2, h1⟩
        · obtain ⟨ln, hmem, h2, h3, h4⟩ := ih h1
          exact ⟨ln, List.mem_cons_of_mem _ hmem, h2, h3, h4⟩
      · obtain ⟨ln, hmem, h2, h3, h4⟩ := ih h
        exact ⟨ln, List.mem_cons_of_mem _ hmem, h2, h3, h4⟩
    · obtain ⟨ln, hmem, h2, h3, h4⟩ := ih h
      exact ⟨ln, List.mem_cons_of_mem _ hmem, h2, h3, h4⟩

/-- C1 counterexample: on the input line "- TODO: call vendor" both
extraction functions produce "todo: call vendor" — the line is lowercased
before cleaning — not the claimed "TODO: call vendor" with its original
letter case. -/
theorem C1_counterexample :
    _extract_action_items_from_text "- TODO: call vendor" = ["todo: call vendor"] ∧
    "TODO: call vendor" ∉ _extract_action_items_from_text "- TODO: call vendor" ∧
    _extract_action_items_simple "- TODO: call vendor" = ["todo: call vendor"] ∧
    "TODO: call vendor" ∉ _extract_action_items_simple "- TODO: call vendor" := by
  refine ⟨by decide, by decide, by decide, by decide⟩

/-- C1 (amended): every action item either extractor produces comes from a
line of the lowercased description whose strip is non-empty and that
contains a keyword, and equals that lowercased line with bullet markers
removed and whitespace stripped (truncated to 100 resp. 80 characters) —
the original letter case is not preserved: "- TODO: call vendor" yields
"todo: call vendor". -/
theorem C1_cleaned_item_shape :
    (∀ text : String, ∀ item ∈ _extract_action_items_from_text text,
      ∃ line ∈ splitOnCharC '\n' (text.data.map toLowerPy),
        stripChars line ≠ [] ∧ hasActionKeyword line = true ∧
        item = ⟨(cleanActionItem (stripChars line)).take 100⟩) ∧
    (∀ text : String, ∀ item ∈ _extract_action_items_simple text,
      ∃ line ∈ splitOnCharC '\n' (text.data.map toLowerPy),
        stripChars line ≠ [] ∧ hasActionKeyword line = true ∧
        item = ⟨(cleanActionItem (stripChars line)).take 80⟩) ∧
    _extract_action_items_from_text "- TODO: call vendor" = ["todo: call vendor"] ∧
    _extract_action_items_simple "- TODO: call vendor" = ["todo: call vendor"] := by
  refine ⟨?_, ?_, by decide, by decide⟩ <;>
  · intro text item hitem
    simp only [_extract_action_items_from_text, _extract_action_items_simple,
      List.mem_map] at hitem
    obtain ⟨l, hl, hcast⟩ := hitem
    obtain ⟨line, hmem, h1, h2, h3⟩ :=
      extractActionLoop_sound _ _ l (List.mem_of_mem_take hl)
    exact ⟨line, hmem, h1, h2, by rw [← hcast, h3]⟩

/-- C1 witness: the amended statement evaluated on the concrete input
"- TODO: call vendor" and its produced item "todo: call vendor". -/
theorem C1_witness :
    ∃ line ∈ splitOnCharC '\n' (("- TODO: call vendor" : String).data.map toLowerPy),
      stripChars line ≠ [] ∧ hasActionKeyword line = true ∧
      ("todo: call vendor" : String) = ⟨(cleanActionItem (stripChars line)).take 100⟩ :=
  C1_cleaned_item_shape.1 "- TODO: call vendor" "todo: call vendor" (by decide)

/-- C5: the number of extracted action items never exceeds the cap — 5 in
the bulk path, 3 in the meeting-summary path — whatever the input text. -/
theorem C5_extraction_caps (text : String) :
    (_extract_action_items_from_text text).length ≤ 5 ∧
    (_extract_action_items_simple text).length ≤ 3 := by
  constructor <;>
    simp [_extract_action_items_from_text, _extract_action_items_simple,
      List.length_take]

/-- The split of a character list is never the empty list of pieces. -/
theorem splitOnCharC_ne_nil (sep : Char) (l : List Char) :
    splitOnCharC sep l ≠ [] := by
  cases l with
  | nil => simp [splitOnCharC]
  | cons c cs =>
    simp only [splitOnCharC]
    split
    · simp
    · split <;> simp

/-- The first piece of the split is the prefix before the first separator. -/
theorem splitOnCharC_headD (sep : Char) (l : List Char) :
    (splitOnCharC sep l).headD [] = l.takeWhile (fun c => c != sep) := by
  induction l with
  | nil => simp [splitOnCharC]
  | cons c cs ih =>
    simp only [splitOnCharC, List.takeWhile]
    by_cases hc : c = sep
    · simp [hc]
    · rw [if_neg hc]
      obtain ⟨hd, tl, heq⟩ := List.exists_cons_of_ne_nil (splitOnCharC_ne_nil sep cs)
      rw [heq]
      have hhd : hd = cs.takeWhile (fun c => c != sep) := by
        rw [← ih, heq]; rfl
      have hbne : (c != sep) = true := by simp [hc]
      simp [hhd, hbne]

/-- A one-character pattern occurs as a substring iff the character occurs. -/
theorem containsSub_singleton (c : Char) (l : List Char) :
    containsSub [c] l = l.contains c := by
  induction l with
  | nil => rfl
  | cons d ds ih =>
    simp only [containsSub, List.contains_cons, ih, List.isPrefixOf]
    by_cases hcd : c = d
    · subst hcd; simp [List.isPrefixOf]
    · have h1 : (c == d) = false := by simp [hcd]
      have h2 : (d == c) = false := by simp [Ne.symm hcd]
      simp [h1, h2, List.isPrefixOf]

/-- C9: a start time containing 'T' contributes its prefix before the
first 'T' as due date, a non-empty start time without 'T' is used
unchanged, "2024-03-01T10:00:00Z" yields "2024-03-01", and both the bulk
loop's and the workflow's date computations agree with this extraction on
string start times. -/
theorem C9_due_date_extraction :
    (∀ s : String, s.data.contains 'T' = true →
      extractDueDate s = ⟨s.data.takeWhile (fun c => c != 'T')⟩) ∧
    (∀ s : String, s ≠ "" → s.data.contains 'T' = false → extractDueDate s = s) ∧
    extractDueDate "2024-03-01T10:00:00Z" = "2024-03-01" ∧
    (∀ s : String, eventDueDate (.str s) = .str (extractDueDate s)) ∧
    (∀ today s : String, s ≠ "" →
      meetingDateOf today (.str s) = .str (extractDueDate s)) := by
  have hpc : ∀ s : String, pyContains "T" (.str s) = .ok (s.data.contains 'T') := by
    intro s
    rw [show pyContains "T" (.str s) = .ok (containsSub ['T'] s.data) from rfl,
      containsSub_singleton]
  refine ⟨?_, ?_, by decide, ?_, ?_⟩
  · intro s h
    have hne : s ≠ "" := by
      intro he
      rw [he] at h
      exact absurd h (by decide)
    unfold extractDueDate
    rw [if_neg hne, if_pos h]
    exact congrArg String.mk (splitOnCharC_headD 'T' s.data)
  · intro s hne h
    unfold extractDueDate
    rw [if_neg hne, if_neg (by rw [h]; simp)]
  · intro s
    by_cases hs : s = ""
    · subst hs; rfl
    · have ht : pyTruthy (.str s) = true := by simp [pyTruthy, hs]
      unfold eventDueDate
      rw [if_neg (by simp [ht]), hpc s]
      cases hT : s.data.contains 'T'
      · simp only []
        unfold extractDueDate
        rw [if_neg hs, if_neg (by rw [hT]; simp)]
      · simp only []
        unfold extractDueDate
        rw [if_neg hs, if_pos hT]
  · intro today s hs
    have ht : pyTruthy (.str s) = true := by simp [pyTruthy, hs]
    unfold meetingDateOf
    rw [if_neg (by simp [ht]), hpc s]
    cases hT : s.data.contains 'T'
    · simp only []
      unfold extractDueDate
      rw [if_neg hs, if_neg (by rw [hT]; simp)]
    · simp only []
      unfold extractDueDate
      rw [if_neg hs, if_pos hT]

/-- C9 witness: the extraction evaluated at "2024-03-01T10:00:00Z" and at
a date-only start time. -/
theorem C9_witness :
    extractDueDate "2024-03-01T10:00:00Z" =
      ⟨("2024-03-01T10:00:00Z" : String).data.takeWhile (fun c => c != 'T')⟩ ∧
    extractDueDate "2024-06-15" = "2024-06-15" ∧
    eventDueDate (.str "2024-03-01T10:00:00Z") = .str (extractDueDate "2024-03-01T10:00:00Z") ∧
    meetingDateOf "2024-01-01" (.str "2024-06-15") = .str (extractDueDate "2024-06-15") :=
  ⟨C9_due_date_extraction.1 "2024-03-01T10:00:00Z" (by decide),
   C9_due_date_extraction.2.1 "2024-06-15" (by decide) (by decide),
   C9_due_date_extraction.2.2.2.1 "2024-03-01T10:00:00Z",
   C9_due_date_extraction.2.2.2.2 "2024-01-01" "2024-06-15" (by decide)⟩

/-- C7: when a configured `_create_task` call carries a non-empty due-date
string that fails `%Y-%m-%d` parsing, exactly one request is still posted,
its payload has no Due Date while all remaining fields are present, and
the call returns a normal text rather than failing. -/
theorem C7_invalid_due_date_omitted
    (cfg : NotionConfig) (now : String) (net : Net) (args : PyDict)
    (t : PyVal) (s : String)
    (hkey : optTruthy cfg.notion_api_key = true)
    (hdb : optTruthy cfg.notion_database_id = true)
    (ht : dictIndexD args "title" = .ok t)
    (hdue : dictGetD args "due_date" (.str "") = .str s)
    (hne : s ≠ "")
    (hbad : validDatePy s = false) :
    ∃ req : CreateRequest,
      (_create_task cfg now net args).1 = [req] ∧
      req.payload.due_date = none ∧
      req.payload.title = t ∧
      req.payload.status = "Not started" ∧
      req.payload.priority = dictGetD args "priority" (.str "Medium") ∧
      req.payload.source = dictGetD args "source" (.str "Calendar") ∧
      req.payload.created = now ∧
      req.payload.database_id = optStr cfg.notion_database_id ∧
      ∃ texts, (_create_task cfg now net args).2 = .ok texts := by
  have hguard : ¬ (¬ optTruthy cfg.notion_api_key ∨ ¬ optTruthy cfg.notion_database_id) := by
    simp [hkey, hdb]
  have htr : pyTruthy (dictGetD args "due_date" (.str "")) = true := by
    rw [hdue]; simp [pyTruthy, hne]
  unfold _create_task
  rw [if_neg hguard, ht, hdue]
  rw [hdue] at htr
  simp only [htr, if_true]
  rw [hbad]
  simp only [if_false, Bool.false_eq_true, reduceIte]
  split <;> exact ⟨_, rfl, rfl, rfl, rfl, rfl, rfl, rfl, rfl, _, rfl⟩

/-- C7 witness: a configured call with the unparseable due date
"2024-99-99" posts one payload without a Due Date and returns a text. -/
theorem C7_witness :
    ∃ req : CreateRequest,
      (_create_task ⟨some "key", some "db"⟩ "2024-01-01T00:00:00"
          (fun _ => .httpError 403 "forbidden")
          [("title", .str "Review"), ("due_date", .str "2024-99-99")]).1 = [req] ∧
      req.payload.due_date = none ∧
      req.payload.title = .str "Review" ∧
      req.payload.status = "Not started" ∧
      req.payload.priority =
        dictGetD [("title", .str "Review"), ("due_date", .str "2024-99-99")]
          "priority" (.str "Medium") ∧
      req.payload.source =
        dictGetD [("title", .str "Review"), ("due_date", .str "2024-99-99")]
          "source" (.str "Calendar") ∧
      req.payload.created = "2024-01-01T00:00:00" ∧
      req.payload.database_id = optStr (some "db") ∧
      ∃ texts,
        (_create_task ⟨some "key", some "db"⟩ "2024-01-01T00:00:00"
            (fun _ => .httpError 403 "forbidden")
            [("title", .str "Review"), ("due_date", .str "2024-99-99")]).2 = .ok texts :=
  C7_invalid_due_date_omitted ⟨some "key", some "db"⟩ "2024-01-01T00:00:00"
    (fun _ => .httpError 403 "forbidden")
    [("title", .str "Review"), ("due_date", .str "2024-99-99")]
    (.str "Review") "2024-99-99" (by decide) (by decide) rfl rfl (by decide) (by decide)

/-- C6: an event whose description is "No description" makes the bulk loop
emit exactly one TaskRecord — the main event record, with priority Medium
and source Calendar — and no action-item records, whatever the
extract_action_items flag. -/
theorem C6_no_description_single_record
    (cfg : NotionConfig) (now : String) (net : Net) (extract : PyVal)
    (fs : List (String × PyVal))
    (hdesc : (lookupField fs "description").getD (.str "") = .str "No description") :
    ∃ mainArgs : PyDict,
      (processEvent cfg now net extract (.dict fs)).taskArgs = [mainArgs] ∧
      lookupField mainArgs "priority" = some (.str "Medium") ∧
      lookupField mainArgs "source" = some (.str "Calendar") := by
  refine ⟨mkMainTaskArgs ((lookupField fs "title").getD (.str "Untitled Event"))
    (.str "No description") ((lookupField fs "location").getD (.str ""))
    (eventDueDate ((lookupField fs "start_time").getD (.str ""))), ?_, rfl, rfl⟩
  simp only [processEvent]
  rw [hdesc]
  split
  · rfl
  · have hne : ¬ (pyTruthy extract = true ∧
        ¬ pyEqStr (PyVal.str "No description") "No description" = true) := by
      simp [pyEqStr]
    rw [if_neg hne]

/-- C6 witness: a concrete no-description event with the extraction flag
set produces exactly the main record. -/
theorem C6_witness :
    ∃ mainArgs : PyDict,
      (processEvent ⟨some "key", some "db"⟩ "2024-01-01T00:00:00"
          (fun _ => .created "pid") (.bool true)
          (.dict [("title", .str "Standup"),
                  ("description", .str "No description")])).taskArgs
        = [mainArgs] ∧
      lookupField mainArgs "priority" = some (.str "Medium") ∧
      lookupField mainArgs "source" = some (.str "Calendar") :=
  C6_no_description_single_record ⟨some "key", some "db"⟩ "2024-01-01T00:00:00"
    (fun _ => .created "pid") (.bool true)
    [("title", .str "Standup"), ("description", .str "No description")] rfl

/-- Valid code points round-trip through `Char.ofNat`. -/
theorem toNat_ofNat_valid (n : Nat) (h : n < 55296) : (Char.ofNat n).toNat = n := by
  have hv : n.isValidChar := Or.inl h
  unfold Char.ofNat
  rw [dif_pos hv]
  simp [Char.ofNatAux, Char.toNat, UInt32.toNat]

/-- A character whose Python lowercase is the lowercase letter `x` is a
letter, uppercases to the uppercase of `x`, and lowercases to `x`. -/
theorem title_char (c x : Char) (hx : 97 ≤ x.toNat ∧ x.toNat ≤ 122)
    (h : toLowerPy c = x) :
    isAlphaPy c = true ∧ toUpperPy c = Char.ofNat (x.toNat - 32) ∧ toLowerPy c = x := by
  unfold toLowerPy at h
  by_cases hc : 65 ≤ c.toNat ∧ c.toNat ≤ 90
  · rw [if_pos hc] at h
    have hnat : c.toNat + 32 = x.toNat := by
      rw [← h, toNat_ofNat_valid _ (by omega)]
    refine ⟨by simp [isAlphaPy]; omega, ?_, ?_⟩
    · unfold toUpperPy
      rw [if_neg (by omega), show x.toNat - 32 = c.toNat by omega]
      exact (Char.ofNat_toNat c).symm
    · unfold toLowerPy
      rw [if_pos hc]
      exact h
  · rw [if_neg hc] at h
    subst h
    refine ⟨by simp [isAlphaPy]; omega, ?_, by unfold toLowerPy; rw [if_neg hc]⟩
    unfold toUpperPy
    rw [if_pos (by omega)]

/-- Past the first character, the title scan lowercases a list whose
lowercase image is a word of lowercase letters. -/
theorem pyTitleAux_true_lower (l : List Char) :
    ∀ w : List Char, (∀ x ∈ w, 97 ≤ x.toNat ∧ x.toNat ≤ 122) →
      l.map toLowerPy = w → pyTitleAux true l = w := by
  induction l with
  | nil => intro w _ h; simp at h; simp [pyTitleAux, ← h]
  | cons c cs ih =>
    intro w hw h
    cases w with
    | nil => simp at h
    | cons x ws =>
      rw [List.map_cons] at h
      injection h with h1 h2
      have hx := hw x (List.mem_cons_self ..)
      obtain ⟨ha, _, _⟩ := title_char c x hx h1
      simp only [pyTitleAux, ha, if_true]
      rw [h1, ih ws (fun y hy => hw y (List.mem_cons_of_mem _ hy)) h2]

/-- A string whose Python lowercase is a non-empty all-lowercase-letter
word title-cases to that word with its first letter uppercased. -/
theorem pyTitle_lower_word (s : String) (x : Char) (ws : List Char)
    (hx : 97 ≤ x.toNat ∧ x.toNat ≤ 122)
    (hws : ∀ y ∈ ws, 97 ≤ y.toNat ∧ y.toNat ≤ 122)
    (h : pyLower s = ⟨x :: ws⟩) :
    pyTitle s = ⟨Char.ofNat (x.toNat - 32) :: ws⟩ := by
  obtain ⟨l⟩ := s
  have hd : l.map toLowerPy = x :: ws := congrArg String.data h
  cases l with
  | nil => simp at hd
  | cons c cs =>
    rw [List.map_cons] at hd
    injection hd with h1 h2
    obtain ⟨ha, hu, _⟩ := title_char c x hx h1
    refine congrArg String.mk ?_
    simp only [pyTitleAux, ha, if_true, Bool.false_eq_true, reduceIte]
    rw [hu, pyTitleAux_true_lower cs ws hws h2]

/-- Lowercasing to "high" forces the title case "High". -/
theorem pyTitle_high (s : String) (h : pyLower s = "high") : pyTitle s = "High" := by
  have := pyTitle_lower_word s 'h' ['i', 'g', 'h'] (by decide)
    (by decide) (h.trans (by decide))
  rw [this]; decide

/-- Lowercasing to "medium" forces the title case "Medium". -/
theorem pyTitle_medium (s : String) (h : pyLower s = "medium") : pyTitle s = "Medium" := by
  have := pyTitle_lower_word s 'm' ['e', 'd', 'i', 'u', 'm'] (by decide)
    (by decide) (h.trans (by decide))
  rw [this]; decide

/-- Lowercasing to "low" forces the title case "Low". -/
theorem pyTitle_low (s : String) (h : pyLower s = "low") : pyTitle s = "Low" := by
  have := pyTitle_lower_word s 'l' ['o', 'w'] (by decide)
    (by decide) (h.trans (by decide))
  rw [this]; decide

/-- A string filter whose lowercase is one of the three priority words
produces exactly one query whose payload carries page size 10 and the
title-cased priority filter. -/
theorem get_tasks_filter_word (cfg : NotionConfig) (netQ : QueryNet)
    (args : PyDict) (s w t : String)
    (hf : dictGetD args "filter_by" (.str "") = .str s)
    (hlow : pyLower s = w)
    (hw : (["high", "medium", "low"] : List String).contains w = true)
    (htitle : pyTitle s = t) :
    ∃ req : QueryRequest, (_get_tasks cfg netQ args).1 = [req] ∧
      req.payload = ⟨10, some ("Priority", t)⟩ := by
  have hs : s ≠ "" := by
    intro he
    subst he
    rw [show pyLower "" = "" from rfl] at hlow
    subst hlow
    exact absurd hw (by decide)
  have htr : pyTruthy (PyVal.str s) = true := by simp [pyTruthy, hs]
  have hcontains : (["high", "medium", "low"] : List String).contains (pyLower s) = true := by
    rw [hlow]; exact hw
  simp only [_get_tasks, hf, htr, if_true, hcontains, htitle]
  repeat' split
  all_goals exact ⟨_, rfl, rfl⟩

/-- C8: a get_tasks call whose filter string lowercases to "high" (or
"medium"/"low") posts exactly one query whose payload requires the
Priority property to equal the title-cased value and requests page size
10. -/
theorem C8_priority_filter :
    (∀ (cfg : NotionConfig) (netQ : QueryNet) (args : PyDict) (s : String),
      dictGetD args "filter_by" (.str "") = .str s → pyLower s = "high" →
      ∃ req : QueryRequest, (_get_tasks cfg netQ args).1 = [req] ∧
        req.payload = ⟨10, some ("Priority", "High")⟩) ∧
    (∀ (cfg : NotionConfig) (netQ : QueryNet) (args : PyDict) (s : String),
      dictGetD args "filter_by" (.str "") = .str s → pyLower s = "medium" →
      ∃ req : QueryRequest, (_get_tasks cfg netQ args).1 = [req] ∧
        req.payload = ⟨10, some ("Priority", "Medium")⟩) ∧
    (∀ (cfg : NotionConfig) (netQ : QueryNet) (args : PyDict) (s : String),
      dictGetD args "filter_by" (.str "") = .str s → pyLower s = "low" →
      ∃ req : QueryRequest, (_get_tasks cfg netQ args).1 = [req] ∧
        req.payload = ⟨10, some ("Priority", "Low")⟩) :=
  ⟨fun cfg netQ args s hf h =>
    get_tasks_filter_word cfg netQ args s "high" "High" hf h (by decide) (pyTitle_high s h),
   fun cfg netQ args s hf h =>
    get_tasks_filter_word cfg netQ args s "medium" "Medium" hf h (by decide) (pyTitle_medium s h),
   fun cfg netQ args s hf h =>
    get_tasks_filter_word cfg netQ args s "low" "Low" hf h (by decide) (pyTitle_low s h)⟩

/-- C8 witness: the filter string "HIGH" yields one query with the
Priority-equals-"High" filter and page size 10. -/
theorem C8_witness :
    ∃ req : QueryRequest,
      (_get_tasks ⟨none, none⟩ (fun _ => .httpError 400 "bad")
          [("filter_by", .str "HIGH")]).1 = [req] ∧
      req.payload = ⟨10, some ("Priority", "High")⟩ :=
  C8_priority_filter.1 ⟨none, none⟩ (fun _ => .httpError 400 "bad")
    [("filter_by", .str "HIGH")] "HIGH" rfl (by decide)

/-- With a missing secret, `_create_task` short-circuits: no request, the
not-configured text. -/
theorem create_task_unconfigured (cfg : NotionConfig) (now : String) (net : Net)
    (args : PyDict)
    (h : optTruthy cfg.notion_api_key = false ∨ optTruthy cfg.notion_database_id = false) :
    _create_task cfg now net args =
      ([], .ok ["Error: Notion API key or database ID not configured."]) := by
  unfold _create_task
  rw [if_pos]
  rcases h with h | h
  · exact Or.inl (by simp [h])
  · exact Or.inr (by simp [h])

/-- With a missing secret, the action-item loop posts nothing. -/
theorem actionLoop_requests_unconfigured (cfg : NotionConfig) (now : String)
    (net : Net) (evTitle due_date : PyVal) (items : List String)
    (h : optTruthy cfg.notion_api_key = false ∨ optTruthy cfg.notion_database_id = false) :
    (actionLoop cfg now net evTitle due_date items).requests = [] := by
  induction items with
  | nil => rfl
  | cons item rest ih =>
    simp only [actionLoop, create_task_unconfigured cfg now net _ h]
    simpa using ih

/-- With a missing secret, processing one event posts nothing. -/
theorem processEvent_requests_unconfigured (cfg : NotionConfig) (now : String)
    (net : Net) (extract ev : PyVal)
    (h : optTruthy cfg.notion_api_key = false ∨ optTruthy cfg.notion_database_id = false) :
    (processEvent cfg now net extract ev).requests = [] := by
  cases ev with
  | dict fs =>
    simp only [processEvent, create_task_unconfigured cfg now net _ h]
    split
    · split
      · simp [actionLoop_requests_unconfigured cfg now net _ _ _ h]
      · rfl
    · rfl
  | none => rfl
  | bool b => rfl
  | num n => rfl
  | str s => rfl
  | list xs => rfl

/-- With a missing secret, the whole bulk loop posts nothing. -/
theorem processEvents_requests_unconfigured (cfg : NotionConfig) (now : String)
    (net : Net) (extract : PyVal) (evs : List PyVal)
    (h : optTruthy cfg.notion_api_key = false ∨ optTruthy cfg.notion_database_id = false) :
    (processEvents cfg now net extract evs).requests = [] := by
  induction evs with
  | nil => rfl
  | cons ev rest ih =>
    simp only [processEvents]
    split
    · exact processEvent_requests_unconfigured cfg now net extract ev h
    · simp [processEvent_requests_unconfigured cfg now net extract ev h, ih]

/-- With a missing secret, the meeting-summary action loop posts nothing. -/
theorem meetingActionLoop_requests_unconfigured (cfg : NotionConfig) (now : String)
    (net : Net) (mt md : PyVal) (items : List PyVal)
    (h : optTruthy cfg.notion_api_key = false ∨ optTruthy cfg.notion_database_id = false) :
    (meetingActionLoop cfg now net mt md items).1 = [] := by
  induction items with
  | nil => rfl
  | cons item rest ih =>
    simp only [meetingActionLoop, create_task_unconfigured cfg now net _ h]
    simpa using ih

/-- C2 (amended): with a missing secret, only create_task returns the
local not-configured error (and posts nothing); the bulk and
meeting-summary operations also post nothing — each underlying creation
short-circuits locally — but hand their own summary or error text to the
caller instead of the not-configured error; get_tasks posts its query
anyway (one request, built over the absent secrets) and returns whatever
the remote exchange yields.  No operation crashes. -/
theorem C2_unconfigured_behavior (cfg : NotionConfig)
    (h : optTruthy cfg.notion_api_key = false ∨ optTruthy cfg.notion_database_id = false) :
    (∀ (now : String) (net : Net) (args : PyDict),
      _create_task cfg now net args =
        ([], .ok ["Error: Notion API key or database ID not configured."])) ∧
    (∀ (now : String) (net : Net) (jl : JsonLoads) (args : PyDict),
      (_create_tasks_from_calendar_events cfg now net jl args).1 = []) ∧
    (∀ (now today : String) (net : Net) (jl : JsonLoads) (args : PyDict),
      (_create_meeting_summary cfg now today net jl args).1 = []) ∧
    (∀ (netQ : QueryNet) (args : PyDict) (s : String),
      dictGetD args "filter_by" (.str "") = .str s →
      (_get_tasks cfg netQ args).1.length = 1) := by
  refine ⟨fun now net args => create_task_unconfigured cfg now net args h,
    ?_, ?_, ?_⟩
  · intro now net jl args
    simp only [_create_tasks_from_calendar_events]
    repeat' split
    all_goals
      first
        | rfl
        | exact processEvents_requests_unconfigured cfg now net _ _ h
  · intro now today net jl args
    simp only [_create_meeting_summary, create_task_unconfigured cfg now net _ h]
    repeat' split
    all_goals
      first
        | rfl
        | (rename_i heq
           have h1 := congrArg (fun p => p.1) heq
           simp only at h1
           rw [meetingActionLoop_requests_unconfigured _ _ _ _ _ _ h] at h1
           simp [← h1])
  · intro netQ args s hf
    simp only [_get_tasks, hf]
    repeat' split
    all_goals
      first
        | rfl
        | (rename_i heq
           split at heq <;>
             first
               | (split at heq <;> simp_all)
               | simp_all)

/-- C2 counterexample: with both secrets absent, get_tasks still posts its
query — to a URL interpolating `None`, with a `Bearer None` header — and
returns the remote error text, not the local not-configured error; and
create_meeting_summary reports success instead of the not-configured
error. -/
theorem C2_counterexample :
    (_get_tasks ⟨none, none⟩ (fun _ => .httpError 401 "unauthorized") []).1 =
      [⟨"https://api.notion.com/v1/databases/None/query", "Bearer None", ⟨10, none⟩⟩] ∧
    (_get_tasks ⟨none, none⟩ (fun _ => .httpError 401 "unauthorized") []).2 =
      .ok ["❌ Error fetching tasks: 401 - unauthorized"] ∧
    ("❌ Error fetching tasks: 401 - unauthorized" : String) ≠
      "Error: Notion API key or database ID not configured." ∧
    (_create_meeting_summary ⟨none, none⟩ "2024-01-01T00:00:00" "2024-01-01"
        (fun _ => .exn "unreachable") (fun _ => .ok (.list []))
        [("meeting_title", .str "Standup"), ("summary", .str "notes")]).2 =
      .ok ["✅ Created meeting summary and 0 action items for: Standup"] :=
  ⟨rfl, rfl, by decide, rfl⟩

/-- C2 witness: the amended statement evaluated at the fully-unset
configuration, on concrete calls. -/
theorem C2_witness :
    _create_task ⟨none, none⟩ "2024-01-01T00:00:00" (fun _ => .exn "unreachable")
        [("title", .str "T")] =
      ([], .ok ["Error: Notion API key or database ID not configured."]) ∧
    (_create_tasks_from_calendar_events ⟨none, none⟩ "2024-01-01T00:00:00"
        (fun _ => .exn "unreachable") (fun _ => .ok (.list []))
        [("events", .str "[]")]).1 = [] ∧
    (_create_meeting_summary ⟨none, none⟩ "2024-01-01T00:00:00" "2024-01-01"
        (fun _ => .exn "unreachable") (fun _ => .ok (.list []))
        [("meeting_title", .str "Standup"), ("summary", .str "notes")]).1 = [] ∧
    (_get_tasks ⟨none, none⟩ (fun _ => .httpError 401 "unauthorized") []).1.length = 1 :=
  ⟨(C2_unconfigured_behavior ⟨none, none⟩ (Or.inl rfl)).1 "2024-01-01T00:00:00"
     (fun _ => .exn "unreachable") [("title", .str "T")],
   (C2_unconfigured_behavior ⟨none, none⟩ (Or.inl rfl)).2.1 "2024-01-01T00:00:00"
     (fun _ => .exn "unreachable") (fun _ => .ok (.list [])) [("events", .str "[]")],
   (C2_unconfigured_behavior ⟨none, none⟩ (Or.inl rfl)).2.2.1 "2024-01-01T00:00:00"
     "2024-01-01" (fun _ => .exn "unreachable") (fun _ => .ok (.list []))
     [("meeting_title", .str "Standup"), ("summary", .str "notes")],
   (C2_unconfigured_behavior ⟨none, none⟩ (Or.inl rfl)).2.2.2
     (fun _ => .httpError 401 "unauthorized") [] "" rfl⟩

/-- Whether a value is a Python string (the spec's "is a string"). -/
def isStr : PyVal → Bool
  | .str _ => true
  | _ => false

/-- The value the attendee comprehension produces for one attendee record:
its 'email' binding if the record is a dict carrying one, None
otherwise. -/
def emailField : PyVal → PyVal
  | .dict fs => (lookupField fs "email").getD .none
  | _ => .none

/-- A successful run of the attendee comprehension returns exactly the
per-record email fields. -/
theorem mapM_email (l : List PyVal) (res : List PyVal)
    (h : l.mapM (fun a => pyDictGet a "email" PyVal.none) = .ok res) :
    res = l.map emailField := by
  induction l generalizing res with
  | nil =>
    simp only [List.mapM_nil, pure, Except.pure] at h
    cases h
    rfl
  | cons a as ih =>
    rw [List.mapM_cons] at h
    cases ha : pyDictGet a "email" PyVal.none with
    | error e => rw [ha] at h; simp [bind, Except.bind] at h
    | ok v =>
      rw [ha] at h
      cases hm : as.mapM (fun a => pyDictGet a "email" PyVal.none) with
      | error e =>
        rw [hm] at h
        simp [bind, Except.bind] at h
      | ok xs =>
        rw [hm] at h
        simp only [bind, Except.bind, pure, Except.pure] at h
        cases h
        cases a with
        | dict fs =>
          simp only [pyDictGet] at ha
          cases ha
          rw [List.map_cons, ih xs hm]
          rfl
        | none => exact absurd ha (by simp [pyDictGet])
        | bool b => exact absurd ha (by simp [pyDictGet])
        | num n => exact absurd ha (by simp [pyDictGet])
        | str s => exact absurd ha (by simp [pyDictGet])
        | list ys => exact absurd ha (by simp [pyDictGet])

/-- C3 (amended): every CalendarEvent the calendar formatters construct
has, as its attendees, exactly the per-record 'email' values — a string
only when the record carries a string email, and None (null) when the
record lacks an 'email' field. -/
theorem C3_attendee_elements (event : PyVal) (info : EventInfo)
    (h : formatEvent event = .ok info) :
    ∃ rawAtt attList,
      pyDictGet event "attendees" (.list []) = .ok rawAtt ∧
      pyIter rawAtt = .ok attList ∧
      info.attendees = attList.map emailField := by
  simp only [formatEvent, bind, Except.bind, pure, Except.pure] at h
  repeat' split at h
  all_goals
    first
      | exact Except.noConfusion h
      | (cases h
         exact ⟨_, _, by assumption, by assumption,
           mapM_email _ _ (by assumption)⟩)

/-- C3 counterexample: a raw event with one attendee record lacking an
'email' field produces an attendees sequence whose element is None — not a
string. -/
theorem C3_counterexample :
    formatEvent (.dict [("start", .dict [("date", .str "2024-01-01")]),
                        ("attendees", .list [.dict [("displayName", .str "Bob")]])]) =
      .ok ⟨.str "No title", .str "2024-01-01", .str "No description",
           .str "No location specified", [PyVal.none]⟩ ∧
    isStr PyVal.none = false :=
  ⟨rfl, rfl⟩

/-- C3 witness: the amended characterization evaluated on the concrete
email-less attendee record. -/
theorem C3_witness :
    ∃ rawAtt attList,
      pyDictGet (.dict [("start", .dict [("date", .str "2024-01-01")]),
          ("attendees", .list [.dict [("displayName", .str "Bob")]])])
        "attendees" (.list []) = .ok rawAtt ∧
      pyIter rawAtt = .ok attList ∧
      (⟨.str "No title", .str "2024-01-01", .str "No description",
        .str "No location specified", [PyVal.none]⟩ : EventInfo).attendees =
        attList.map emailField :=
  C3_attendee_elements
    (.dict [("start", .dict [("date", .str "2024-01-01")]),
            ("attendees", .list [.dict [("displayName", .str "Bob")]])])
    ⟨.str "No title", .str "2024-01-01", .str "No description",
     .str "No location specified", [PyVal.none]⟩ rfl

/-- `_create_task` either raises or returns exactly one text. -/
theorem create_task_texts_shape (cfg : NotionConfig) (now : String) (net : Net)
    (args : PyDict) :
    (∃ e, (_create_task cfg now net args).2 = .error e) ∨
    (∃ t, (_create_task cfg now net args).2 = .ok [t]) := by
  simp only [_create_task]
  repeat' split
  all_goals first | (left; exact ⟨_, rfl⟩) | (right; exact ⟨_, rfl⟩)

/-- The bulk operation either raises or returns exactly one text. -/
theorem create_tasks_texts_shape (cfg : NotionConfig) (now : String) (net : Net)
    (jl : JsonLoads) (args : PyDict) :
    (∃ e, (_create_tasks_from_calendar_events cfg now net jl args).2 = .error e) ∨
    (∃ t, (_create_tasks_from_calendar_events cfg now net jl args).2 = .ok [t]) := by
  simp only [_create_tasks_from_calendar_events]
  repeat' split
  all_goals first | (left; exact ⟨_, rfl⟩) | (right; exact ⟨_, rfl⟩)

/-- The meeting-summary operation either raises or returns exactly one
text. -/
theorem create_meeting_texts_shape (cfg : NotionConfig) (now today : String)
    (net : Net) (jl : JsonLoads) (args : PyDict) :
    (∃ e, (_create_meeting_summary cfg now today net jl args).2 = .error e) ∨
    (∃ t, (_create_meeting_summary cfg now today net jl args).2 = .ok [t]) := by
  simp only [_create_meeting_summary]
  repeat' split
  all_goals first | (left; exact ⟨_, rfl⟩) | (right; exact ⟨_, rfl⟩)

/-- `_get_tasks` never raises and returns exactly one text. -/
theorem get_tasks_texts_shape (cfg : NotionConfig) (netQ : QueryNet) (args : PyDict) :
    ∃ t, (_get_tasks cfg netQ args).2 = .ok [t] := by
  simp only [_get_tasks]
  repeat' split
  all_goals exact ⟨_, rfl⟩

/-- The shared fetch body either raises or returns exactly one text. -/
theorem fetchEvents_texts_shape (svc : CalNet) (cid : PyVal) (tmin tmax emptyMsg : String) :
    (∃ e, fetchEvents svc cid tmin tmax emptyMsg = .error e) ∨
    (∃ t, fetchEvents svc cid tmin tmax emptyMsg = .ok [t]) := by
  simp only [fetchEvents, bind, Except.bind, pure, Except.pure]
  repeat' split
  all_goals first | (left; exact ⟨_, rfl⟩) | (right; exact ⟨_, rfl⟩)

/-- `_get_todays_events` either raises or returns exactly one text. -/
theorem get_todays_texts_shape (service : Option CalNet) (auth : Except String CalNet)
    (ti tm : String) (args : PyDict) :
    (∃ e, _get_todays_events service auth ti tm args = .error e) ∨
    (∃ t, _get_todays_events service auth ti tm args = .ok [t]) := by
  unfold _get_todays_events
  cases hs : getService service auth with
  | error e => exact Or.inl ⟨e, rfl⟩
  | ok svc =>
    dsimp only
    rcases fetchEvents_texts_shape svc (dictGetD args "calendar_id" (.str "primary"))
        ti tm "No events found for today." with ⟨e, he⟩ | ⟨t, ht⟩
    · rw [he]; exact Or.inr ⟨_, rfl⟩
    · rw [ht]; exact Or.inr ⟨_, rfl⟩

/-- `_get_events_by_date` either raises or returns exactly one text. -/
theorem get_by_date_texts_shape (service : Option CalNet) (auth : Except String CalNet)
    (args : PyDict) :
    (∃ e, _get_events_by_date service auth args = .error e) ∨
    (∃ t, _get_events_by_date service auth args = .ok [t]) := by
  unfold _get_events_by_date
  cases hs : getService service auth with
  | error e => exact Or.inl ⟨e, rfl⟩
  | ok svc =>
    dsimp only
    cases hd : dictIndexD args "date" with
    | error e => exact Or.inl ⟨e, rfl⟩
    | ok dateV =>
      dsimp only
      cases dateV with
      | str date_str =>
        dsimp only
        cases hp : parseDatePy date_str with
        | none => exact Or.inr ⟨_, rfl⟩
        | some ymd =>
          obtain ⟨y, m, d⟩ := ymd
          dsimp only
          rcases fetchEvents_texts_shape svc (dictGetD args "calendar_id" (.str "primary"))
              (isoMidnight y m d ++ "Z")
              (isoMidnight (nextDay y m d).1 (nextDay y m d).2.1 (nextDay y m d).2.2 ++ "Z")
              ("No events found for " ++ date_str ++ ".") with ⟨e, he⟩ | ⟨t, ht⟩
          · rw [he]; exact Or.inr ⟨_, rfl⟩
          · rw [ht]; exact Or.inr ⟨_, rfl⟩
      | none => exact Or.inr ⟨_, rfl⟩
      | bool b => exact Or.inr ⟨_, rfl⟩
      | num n => exact Or.inr ⟨_, rfl⟩
      | list xs => exact Or.inr ⟨_, rfl⟩
      | dict fs => exact Or.inr ⟨_, rfl⟩

/-- `_extract_meeting_details` either raises or returns exactly one text. -/
theorem extract_details_texts_shape (args : PyDict) :
    (∃ e, _extract_meeting_details args = .error e) ∨
    (∃ t, _extract_meeting_details args = .ok [t]) := by
  simp only [_extract_meeting_details]
  repeat' split
  all_goals first | (left; exact ⟨_, rfl⟩) | (right; exact ⟨_, rfl⟩)

/-- C4: both servers' tool-call handlers return exactly one textual
message for every tool name (unknown names included) and every argument
dict (None included) — no modelled exception escapes to the caller. -/
theorem C4_every_call_returns_one_text :
    (∀ (cfg : NotionConfig) (now today : String) (net : Net) (netQ : QueryNet)
       (jl : JsonLoads) (name : String) (arguments : Option PyDict),
      (notionHandleCallTool cfg now today net netQ jl name arguments).2.2.length = 1) ∧
    (∀ (service : Option CalNet) (auth : Except String CalNet) (ti tm : String)
       (name : String) (arguments : Option PyDict),
      (calendarHandleCallTool service auth ti tm name arguments).length = 1) := by
  constructor
  · intro cfg now today net netQ jl name arguments
    simp only [notionHandleCallTool]
    by_cases h1 : name = "create_task"
    · rcases create_task_texts_shape cfg now net (arguments.getD []) with ⟨e, he⟩ | ⟨t, ht⟩
      · rcases hp : _create_task cfg now net (arguments.getD []) with ⟨r, res⟩
        rw [hp] at he
        simp only [Prod.snd] at he
        simp [h1, hp, he]
      · rcases hp : _create_task cfg now net (arguments.getD []) with ⟨r, res⟩
        rw [hp] at ht
        simp only [Prod.snd] at ht
        simp [h1, hp, ht]
    · by_cases h2 : name = "create_tasks_from_calendar_events"
      · rcases create_tasks_texts_shape cfg now net jl (arguments.getD []) with ⟨e, he⟩ | ⟨t, ht⟩
        · rcases hp : _create_tasks_from_calendar_events cfg now net jl (arguments.getD []) with ⟨r, res⟩
          rw [hp] at he
          simp only [Prod.snd] at he
          simp [h1, h2, hp, he]
        · rcases hp : _create_tasks_from_calendar_events cfg now net jl (arguments.getD []) with ⟨r, res⟩
          rw [hp] at ht
          simp only [Prod.snd] at ht
          simp [h1, h2, hp, ht]
      · by_cases h3 : name = "create_meeting_summary"
        · rcases create_meeting_texts_shape cfg now today net jl (arguments.getD []) with ⟨e, he⟩ | ⟨t, ht⟩
          · rcases hp : _create_meeting_summary cfg now today net jl (arguments.getD []) with ⟨r, res⟩
            rw [hp] at he
            simp only [Prod.snd] at he
            simp [h1, h2, h3, hp, he]
          · rcases hp : _create_meeting_summary cfg now today net jl (arguments.getD []) with ⟨r, res⟩
            rw [hp] at ht
            simp only [Prod.snd] at ht
            simp [h1, h2, h3, hp, ht]
        · by_cases h4 : name = "get_tasks"
          · obtain ⟨t, ht⟩ := get_tasks_texts_shape cfg netQ (arguments.getD [])
            rcases hp : _get_tasks cfg netQ (arguments.getD []) with ⟨q, res⟩
            rw [hp] at ht
            simp only [Prod.snd] at ht
            simp [h1, h2, h3, h4, hp, ht]
          · simp [h1, h2, h3, h4]
  · intro service auth ti tm name arguments
    simp only [calendarHandleCallTool]
    by_cases h1 : name = "get_todays_events"
    · rcases get_todays_texts_shape service auth ti tm (arguments.getD []) with ⟨e, he⟩ | ⟨t, ht⟩
      · simp [h1, he]
      · simp [h1, ht]
    · by_cases h2 : name = "get_events_by_date"
      · rcases get_by_date_texts_shape service auth (arguments.getD []) with ⟨e, he⟩ | ⟨t, ht⟩
        · simp [h1, h2, he]
        · simp [h1, h2, ht]
      · by_cases h3 : name = "extract_meeting_details"
        · rcases extract_details_texts_shape (arguments.getD []) with ⟨e, he⟩ | ⟨t, ht⟩
          · simp [h1, h2, h3, he]
          · simp [h1, h2, h3, ht]
        · simp [h1, h2, h3]

/-- The number of action items the bulk path extracts for one event (the
claim-side count: 0 unless extraction is on and the description is a
non-default string). -/
def eventActionCount (extract : PyVal) : PyVal → Nat
  | .dict fs =>
    let description := (lookupField fs "description").getD (.str "")
    if pyTruthy extract ∧ ¬ pyEqStr description "No description" then
      match description with
      | .str dtext => (_extract_action_items_from_text dtext).length
      | _ => 0
    else 0
  | _ => 0

/-- Two runs of `_create_task` under different networks fail together
(with the same exception) or succeed together (each with one text):
everything before the post, and whether the post happens, is
network-independent. -/
theorem create_task_indep (cfg : NotionConfig) (now : String) (net net' : Net)
    (args : PyDict) :
    (∃ e, (_create_task cfg now net args).2 = .error e ∧
          (_create_task cfg now net' args).2 = .error e) ∨
    ((∃ t, (_create_task cfg now net args).2 = .ok [t]) ∧
     (∃ t, (_create_task cfg now net' args).2 = .ok [t])) := by
  simp only [_create_task]
  repeat' split
  all_goals
    first
      | (left; exact ⟨_, rfl, rfl⟩)
      | (right; exact ⟨⟨_, rfl⟩, ⟨_, rfl⟩⟩)

/-- The action-item loop's emitted records, entries and error do not
depend on the network. -/
theorem actionLoop_indep (cfg : NotionConfig) (now : String) (net net' : Net)
    (t dd : PyVal) (items : List String) :
    (actionLoop cfg now net t dd items).taskArgs =
      (actionLoop cfg now net' t dd items).taskArgs ∧
    (actionLoop cfg now net t dd items).entries =
      (actionLoop cfg now net' t dd items).entries ∧
    (actionLoop cfg now net t dd items).err =
      (actionLoop cfg now net' t dd items).err := by
  induction items with
  | nil => exact ⟨rfl, rfl, rfl⟩
  | cons item rest ih =>
    simp only [actionLoop]
    rcases create_task_indep cfg now net net' (mkActionTaskArgs item t dd) with
      ⟨e, he, he'⟩ | ⟨⟨t1, ht1⟩, ⟨t2, ht2⟩⟩
    · rcases h1 : _create_task cfg now net (mkActionTaskArgs item t dd) with ⟨r1, res1⟩
      rcases h2 : _create_task cfg now net' (mkActionTaskArgs item t dd) with ⟨r2, res2⟩
      rw [h1] at he
      rw [h2] at he'
      simp only [Prod.snd] at he he'
      rw [he, he']
      exact ⟨rfl, rfl, rfl⟩
    · rcases h1 : _create_task cfg now net (mkActionTaskArgs item t dd) with ⟨r1, res1⟩
      rcases h2 : _create_task cfg now net' (mkActionTaskArgs item t dd) with ⟨r2, res2⟩
      rw [h1] at ht1
      rw [h2] at ht2
      simp only [Prod.snd] at ht1 ht2
      rw [ht1, ht2]
      exact ⟨by rw [ih.1], by rw [ih.2.1], ih.2.2⟩

/-- One event's emitted records, entries and error do not depend on the
network. -/
theorem processEvent_indep (cfg : NotionConfig) (now : String) (net net' : Net)
    (extract ev : PyVal) :
    (processEvent cfg now net extract ev).taskArgs =
      (processEvent cfg now net' extract ev).taskArgs ∧
    (processEvent cfg now net extract ev).entries =
      (processEvent cfg now net' extract ev).entries ∧
    (processEvent cfg now net extract ev).err =
      (processEvent cfg now net' extract ev).err := by
  cases ev with
  | dict fs =>
    simp only [processEvent]
    rcases create_task_indep cfg now net net'
        (mkMainTaskArgs ((lookupField fs "title").getD (.str "Untitled Event"))
          ((lookupField fs "description").getD (.str ""))
          ((lookupField fs "location").getD (.str ""))
          (eventDueDate ((lookupField fs "start_time").getD (.str "")))) with
      ⟨e, he, he'⟩ | ⟨⟨t1, ht1⟩, ⟨t2, ht2⟩⟩
    · rcases h1 : _create_task cfg now net _ with ⟨r1, res1⟩
      rw [h1] at he
      rcases h2 : _create_task cfg now net' _ with ⟨r2, res2⟩
      rw [h2] at he'
      simp only [Prod.snd] at he he'
      rw [he, he']
      exact ⟨rfl, rfl, rfl⟩
    · rcases h1 : _create_task cfg now net _ with ⟨r1, res1⟩
      rw [h1] at ht1
      rcases h2 : _create_task cfg now net' _ with ⟨r2, res2⟩
      rw [h2] at ht2
      simp only [Prod.snd] at ht1 ht2
      rw [ht1, ht2]
      dsimp only
      split
      · split
        · rename_i dtext heq
          have hal := actionLoop_indep cfg now net net'
            ((lookupField fs "title").getD (.str "Untitled Event"))
            (eventDueDate ((lookupField fs "start_time").getD (.str "")))
            (_extract_action_items_from_text dtext)
          exact ⟨by rw [hal.1], by rw [hal.2.1], hal.2.2⟩
        · exact ⟨rfl, rfl, rfl⟩
      · exact ⟨rfl, rfl, rfl⟩
  | none => exact ⟨rfl, rfl, rfl⟩
  | bool b => exact ⟨rfl, rfl, rfl⟩
  | num n => exact ⟨rfl, rfl, rfl⟩
  | str s => exact ⟨rfl, rfl, rfl⟩
  | list xs => exact ⟨rfl, rfl, rfl⟩

/-- The whole bulk loop's emitted records, entries and error do not depend
on the network. -/
theorem processEvents_indep (cfg : NotionConfig) (now : String) (net net' : Net)
    (extract : PyVal) (evs : List PyVal) :
    (processEvents cfg now net extract evs).taskArgs =
      (processEvents cfg now net' extract evs).taskArgs ∧
    (processEvents cfg now net extract evs).entries =
      (processEvents cfg now net' extract evs).entries ∧
    (processEvents cfg now net extract evs).err =
      (processEvents cfg now net' extract evs).err := by
  induction evs with
  | nil => exact ⟨rfl, rfl, rfl⟩
  | cons ev rest ih =>
    simp only [processEvents]
    have hpe := processEvent_indep cfg now net net' extract ev
    cases h1 : (processEvent cfg now net extract ev).err with
    | some e =>
      have h2 : (processEvent cfg now net' extract ev).err = some e := by
        rw [← hpe.2.2, h1]
      rw [h1] at hpe
      rw [h2]
      exact ⟨hpe.1, hpe.2.1, h1.trans h2.symm⟩
    | none =>
      have h2 : (processEvent cfg now net' extract ev).err = none := by
        rw [← hpe.2.2, h1]
      rw [h2]
      exact ⟨by rw [hpe.1, ih.1], by rw [hpe.2.1, ih.2.1], ih.2.2⟩

/-- A non-aborted action loop appends one entry per extracted item. -/
theorem actionLoop_entries_count (cfg : NotionConfig) (now : String) (net : Net)
    (t dd : PyVal) (items : List String)
    (h : (actionLoop cfg now net t dd items).err = none) :
    (actionLoop cfg now net t dd items).entries.length = items.length := by
  induction items with
  | nil => rfl
  | cons item rest ih =>
    simp only [actionLoop] at h ⊢
    rcases h1 : _create_task cfg now net (mkActionTaskArgs item t dd) with ⟨r1, res1⟩
    rw [h1] at h
    cases res1 with
    | error e => dsimp only at h; simp at h
    | ok ts =>
      dsimp only at h ⊢
      simp only [List.length_cons]
      rw [ih h]

/-- A non-aborted event iteration appends one entry for the event plus one
per extracted action item. -/
theorem processEvent_entries_count (cfg : NotionConfig) (now : String) (net : Net)
    (extract ev : PyVal)
    (h : (processEvent cfg now net extract ev).err = none) :
    (processEvent cfg now net extract ev).entries.length =
      1 + eventActionCount extract ev := by
  cases ev with
  | dict fs =>
    simp only [processEvent, eventActionCount] at h ⊢
    rcases h1 : _create_task cfg now net
        (mkMainTaskArgs ((lookupField fs "title").getD (.str "Untitled Event"))
          ((lookupField fs "description").getD (.str ""))
          ((lookupField fs "location").getD (.str ""))
          (eventDueDate ((lookupField fs "start_time").getD (.str "")))) with ⟨r1, res1⟩
    rw [h1] at h
    cases res1 with
    | error e => dsimp only at h; simp at h
    | ok ts =>
      dsimp only at h ⊢
      split at h
      · rename_i hcond
        rw [if_pos hcond, if_pos hcond]
        split at h
        · rename_i dtext heq
          rw [heq]
          dsimp only at h ⊢
          simp only [List.length_cons]
          rw [actionLoop_entries_count cfg now net _ _ _ h]
          omega
        · simp at h
      · rename_i hcond
        rw [if_neg hcond, if_neg hcond]
        simp
  | none => simp [processEvent] at h
  | bool b => simp [processEvent] at h
  | num n => simp [processEvent] at h
  | str s => simp [processEvent] at h
  | list xs => simp [processEvent] at h

/-- A non-aborted bulk run appends one entry per event plus one per
extracted action item. -/
theorem processEvents_entries_count (cfg : NotionConfig) (now : String) (net : Net)
    (extract : PyVal) (evs : List PyVal)
    (h : (processEvents cfg now net extract evs).err = none) :
    (processEvents cfg now net extract evs).entries.length =
      evs.length + (evs.map (eventActionCount extract)).sum := by
  induction evs with
  | nil => rfl
  | cons ev rest ih =>
    simp only [processEvents] at h ⊢
    cases h1 : (processEvent cfg now net extract ev).err with
    | some e =>
      rw [h1] at h
      dsimp only at h
      rw [h1] at h
      simp at h
    | none =>
      rw [h1] at h
      dsimp only at h ⊢
      simp only [List.length_append, List.length_cons, List.map_cons, List.sum_cons]
      rw [processEvent_entries_count cfg now net extract ev h1, ih h]
      omega

/-- C10: on its non-exception path the bulk operation reports a success
summary counting one task per event plus one per extracted action item,
and the summary is identical under any two networks — individual
`_create_task` failures (non-200 responses, exceptions) do not reduce the
reported count. -/
theorem C10_success_count_ignores_failures
    (cfg : NotionConfig) (now : String) (net net' : Net) (jl : JsonLoads)
    (args : PyDict) (s : String) (evs : List PyVal)
    (hev : dictIndexD args "events" = .ok (.str s))
    (hjl : jl s = .ok (.list evs))
    (hok : (processEvents cfg now net
      (dictGetD args "extract_action_items" (.bool true)) evs).err = none) :
    ∃ entries : List String,
      entries.length = evs.length +
        (evs.map (eventActionCount (dictGetD args "extract_action_items" (.bool true)))).sum ∧
      (_create_tasks_from_calendar_events cfg now net jl args).2 =
        .ok ["✅ Created " ++ toString entries.length ++ " tasks from calendar events:\n"
             ++ String.intercalate "\n" (entries.map fun t => "• " ++ t)] ∧
      (_create_tasks_from_calendar_events cfg now net' jl args).2 =
        .ok ["✅ Created " ++ toString entries.length ++ " tasks from calendar events:\n"
             ++ String.intercalate "\n" (entries.map fun t => "• " ++ t)] := by
  have hind := processEvents_indep cfg now net net'
    (dictGetD args "extract_action_items" (.bool true)) evs
  have hok' : (processEvents cfg now net'
      (dictGetD args "extract_action_items" (.bool true)) evs).err = none := by
    rw [← hind.2.2]; exact hok
  refine ⟨(processEvents cfg now net
      (dictGetD args "extract_action_items" (.bool true)) evs).entries,
    processEvents_entries_count cfg now net _ evs hok, ?_, ?_⟩
  · simp only [_create_tasks_from_calendar_events, hev, hjl, pyIter]
    rw [hok]
  · simp only [_create_tasks_from_calendar_events, hev, hjl, pyIter]
    rw [hok', hind.2.1]

/-- C10 witness: one event with a TODO description under a network that
fails every post still yields the success summary counting 2 tasks (the
event plus one action item), equal to the summary under a succeeding
network. -/
theorem C10_witness :
    ∃ entries : List String,
      entries.length =
        ([(.dict [("title", .str "Sync"),
            ("description", .str "TODO: call the vendor team"),
            ("start_time", .str "2024-03-01T10:00:00Z")])] : List PyVal).length +
        (([(.dict [("title", .str "Sync"),
            ("description", .str "TODO: call the vendor team"),
            ("start_time", .str "2024-03-01T10:00:00Z")])] : List PyVal).map
          (eventActionCount (dictGetD [("events", .str "payload")]
            "extract_action_items" (.bool true)))).sum ∧
      (_create_tasks_from_calendar_events ⟨some "k", some "db"⟩ "2024-01-01T00:00:00"
          (fun _ => .httpError 500 "boom")
          (fun _ => .ok (.list [.dict [("title", .str "Sync"),
            ("description", .str "TODO: call the vendor team"),
            ("start_time", .str "2024-03-01T10:00:00Z")]]))
          [("events", .str "payload")]).2 =
        .ok ["✅ Created " ++ toString entries.length ++ " tasks from calendar events:\n"
             ++ String.intercalate "\n" (entries.map fun t => "• " ++ t)] ∧
      (_create_tasks_from_calendar_events ⟨some "k", some "db"⟩ "2024-01-01T00:00:00"
          (fun _ => .created "pid")
          (fun _ => .ok (.list [.dict [("title", .str "Sync"),
            ("description", .str "TODO: call the vendor team"),
            ("start_time", .str "2024-03-01T10:00:00Z")]]))
          [("events", .str "payload")]).2 =
        .ok ["✅ Created " ++ toString entries.length ++ " tasks from calendar events:\n"
             ++ String.intercalate "\n" (entries.map fun t => "• " ++ t)] :=
  C10_success_count_ignores_failures ⟨some "k", some "db"⟩ "2024-01-01T00:00:00"
    (fun _ => .httpError 500 "boom") (fun _ => .created "pid")
    (fun _ => .ok (.list [.dict [("title", .str "Sync"),
      ("description", .str "TODO: call the vendor team"),
      ("start_time", .str "2024-03-01T10:00:00Z")]]))
    [("events", .str "payload")] "payload"
    [.dict [("title", .str "Sync"),
      ("description", .str "TODO: call the vendor team"),
      ("start_time", .str "2024-03-01T10:00:00Z")]]
    rfl rfl rfl
